import Mathlib

/-!
# placeli import/merge/deduplication engine — formal model

A shallow embedding of the source-normalization and merge/dedup core of the
`placeli` repository: the canonical `Place` record, identity hashing
(SHA-256 over the identity tuple), the source adapters' conversion
functions, duplicate-candidate search, the import-merge and
enrichment-merge engines, and the smart/simple import orchestrators.

Conventions of the embedding:
* Go machine floats (`float64`/`float32`) are modelled as exact rationals
  `ℚ`; `fmt` `%f` rendering is modelled as rounding to six decimal places
  (Go renders the nearest binary64, which agrees with rational rounding
  except within half an ulp of a decimal tie — no input considered here
  approaches one).
* Go `time.Time` is an abstract tick `Time := Nat`; `Format(time.RFC3339)`
  is modelled as an injective rendering of the tick.
* Go maps (`map[string]interface{}`, `map[string]string`, `map[string]int`)
  are association lists whose key lists are duplicate-free; map assignment
  replaces an existing binding or appends.
* Fallible operations return `Option`.
-/

namespace Placeli

/-! ## SHA-256 (Go `crypto/sha256`)

Byte-level SHA-256 over `List Nat` (each entry a byte), words as naturals
reduced mod `2^32`. -/

namespace SHA256

def M32 : Nat := 4294967296

/-- Right rotation of a 32-bit word. -/
def rotr (n x : Nat) : Nat := ((x >>> n) ||| (x <<< (32 - n))) % M32

def bsig0 (x : Nat) : Nat := (rotr 2 x) ^^^ (rotr 13 x) ^^^ (rotr 22 x)

def bsig1 (x : Nat) : Nat := (rotr 6 x) ^^^ (rotr 11 x) ^^^ (rotr 25 x)

def ssig0 (x : Nat) : Nat := (rotr 7 x) ^^^ (rotr 18 x) ^^^ (x >>> 3)

def ssig1 (x : Nat) : Nat := (rotr 17 x) ^^^ (rotr 19 x) ^^^ (x >>> 10)

def ch (x y z : Nat) : Nat := (x &&& y) ^^^ ((x ^^^ 4294967295) &&& z)

def maj (x y z : Nat) : Nat := (x &&& y) ^^^ (x &&& z) ^^^ (y &&& z)

/-- The 64 round constants of FIPS 180-4 §4.2.2, in decimal. -/
def K : List Nat :=
  [1116352408, 1899447441, 3049323471, 3921009573, 961987163,
   1508970993, 2453635748, 2870763221, 3624381080, 310598401,
   607225278, 1426881987, 1925078388, 2162078206, 2614888103,
   3248222580, 3835390401, 4022224774, 264347078, 604807628,
   770255983, 1249150122, 1555081692, 1996064986, 2554220882,
   2821834349, 2952996808, 3210313671, 3336571891, 3584528711,
   113926993, 338241895, 666307205, 773529912, 1294757372,
   1396182291, 1695183700, 1986661051, 2177026350, 2456956037,
   2730485921, 2820302411, 3259730800, 3345764771, 3516065817,
   3600352804, 4094571909, 275423344, 430227734, 506948616,
   659060556, 883997877, 958139571, 1322822218, 1537002063,
   1747873779, 1955562222, 2024104815, 2227730452, 2361852424,
   2428436474, 2756734187, 3204031479, 3329325298]

/-- The eight initial hash words of FIPS 180-4 §5.3.3, in decimal. -/
def H0 : List Nat :=
  [1779033703, 3144134277, 1013904242, 2773480762,
   1359893119, 2600822924, 528734635, 1541459225]

/-- Merkle–Damgård padding: `0x80`, zeros to 56 mod 64, 8-byte big-endian
bit length. -/
def pad (msg : List Nat) : List Nat :=
  let L := msg.length
  msg ++ 0x80 :: List.replicate ((64 - (L + 9) % 64) % 64) 0
      ++ (List.range 8).map (fun i => ((8 * L) >>> (8 * (7 - i))) % 256)

/-- Big-endian bytes to 32-bit words. -/
def toWords : List Nat → List Nat
  | b0 :: b1 :: b2 :: b3 :: rest =>
      (b0 * 16777216 + b1 * 65536 + b2 * 256 + b3) :: toWords rest
  | _ => []

/-- Message schedule: the 16 block words extended to 64. -/
def schedule (ws : List Nat) : Array Nat :=
  (List.range 48).foldl
    (fun w _ =>
      let t := w.size
      w.push ((ssig1 (w.getD (t - 2) 0) + w.getD (t - 7) 0
               + ssig0 (w.getD (t - 15) 0) + w.getD (t - 16) 0) % M32))
    ws.toArray

/-- One compression round on the eight working variables. -/
def round (w : Array Nat) (s : List Nat) (t : Nat) : List Nat :=
  match s with
  | [a, b, c, d, e, f, g, h] =>
      let T1 := (h + bsig1 e + ch e f g + K.getD t 0 + w.getD t 0) % M32
      let T2 := (bsig0 a + maj a b c) % M32
      [(T1 + T2) % M32, a, b, c, (d + T1) % M32, e, f, g]
  | s => s

/-- Compress one 64-byte block into the hash state. -/
def compress (h : List Nat) (block : List Nat) : List Nat :=
  let w := schedule (toWords block)
  let r := (List.range 64).foldl (round w) h
  (h.zip r).map fun p => (p.1 + p.2) % M32

/-- Split a padded message into 64-byte blocks. -/
def chunks (l : List Nat) : List (List Nat) :=
  go (l.length / 64) l
where
  go : Nat → List Nat → List (List Nat)
    | 0, _ => []
    | n + 1, l => l.take 64 :: go n (l.drop 64)

/-- SHA-256 digest: 32 bytes. -/
def sha256 (msg : List Nat) : List Nat :=
  let hs := (chunks (pad msg)).foldl compress H0
  hs.foldr (fun w acc =>
    (w >>> 24) % 256 :: (w >>> 16) % 256 :: (w >>> 8) % 256 :: w % 256 :: acc) []

def hexDigit (n : Nat) : Char :=
  if n < 10 then Char.ofNat (48 + n) else Char.ofNat (87 + n)

def bytesToHex (bs : List Nat) : String :=
  String.mk (bs.foldr (fun b acc => hexDigit (b / 16) :: hexDigit (b % 16) :: acc) [])

/-- UTF-8 encoding of one character. -/
def utf8Bytes (c : Char) : List Nat :=
  let n := c.toNat
  if n < 0x80 then [n]
  else if n < 0x800 then [0xC0 + n / 64, 0x80 + n % 64]
  else if n < 0x10000 then [0xE0 + n / 4096, 0x80 + (n / 64) % 64, 0x80 + n % 64]
  else [0xF0 + n / 262144, 0x80 + (n / 4096) % 64, 0x80 + (n / 64) % 64, 0x80 + n % 64]

def strBytes (s : String) : List Nat :=
  (s.toList.map utf8Bytes).flatten

end SHA256

/-- Full lowercase-hex SHA-256 of a string's UTF-8 bytes, as Go's
`fmt.Sprintf("%x", sha256.Sum256([]byte(s)))`. -/
def sha256hex (s : String) : String :=
  SHA256.bytesToHex (SHA256.sha256 (SHA256.strBytes s))

/-! ## Formatting helpers (Go `fmt`, `strconv`, `strings`) -/

/-- Zero-pad a natural to six decimal digits. -/
def pad6 (n : Nat) : String :=
  let s := toString n
  String.mk (List.replicate (6 - s.length) '0') ++ s

/-- Go `fmt` `%f` on a float64: sign, integer part, six digits after the
decimal point, rounded to the nearest millionth
(`⌊|q|·10⁶ + 1/2⌋ = (2·|num|·10⁶ + den) / (2·den)` in integer division). -/
def fmt6 (q : ℚ) : String :=
  let sign := if q.num < 0 then "-" else ""
  let n := (2 * q.num.natAbs * 1000000 + q.den) / (2 * q.den)
  sign ++ toString (n / 1000000) ++ "." ++ pad6 (n % 1000000)

/-- Abstract timestamp standing in for Go `time.Time`; `0` is the zero
time (`IsZero`). -/
abbrev Time := Nat

/-- Models `t.Format(time.RFC3339)`: an injective rendering of the
abstract tick. -/
def formatRFC3339 (t : Time) : String := toString t

/-- Models Go `strings.Title`: uppercase every letter that follows a
non-letter. -/
def goTitle (s : String) : String :=
  let r := s.toList.foldl
    (fun (acc : List Char × Bool) c =>
      ((if acc.2 then c else c.toUpper) :: acc.1, c.isAlpha))
    ([], false)
  String.mk r.1.reverse

def hexVal (c : Char) : Option Nat :=
  if '0' ≤ c ∧ c ≤ '9' then some (c.toNat - 48)
  else if 'a' ≤ c ∧ c ≤ 'f' then some (c.toNat - 87)
  else if 'A' ≤ c ∧ c ≤ 'F' then some (c.toNat - 70)
  else none

/-- Go `net/url` `QueryUnescape`: decode `+` to space and `%XX` escapes;
`none` on a malformed escape (Go returns an error). -/
def queryUnescape (s : String) : Option String :=
  (go s.toList).map String.mk
where
  go : List Char → Option (List Char)
    | [] => some []
    | '+' :: rest => (go rest).map (' ' :: ·)
    | '%' :: a :: b :: rest =>
        match hexVal a, hexVal b with
        | some x, some y => (go rest).map (Char.ofNat (16 * x + y) :: ·)
        | _, _ => none
    | '%' :: _ => none
    | c :: rest => (go rest).map (c :: ·)

/-- Parse a decimal literal matching `-?\d+\.?\d*` into an exact rational
(the shape accepted by the Go code's coordinate regular expression; the
Go side parses it with `strconv.ParseFloat`, whose binary64 rounding is
not modelled). -/
def parseDecimal (s : String) : Option ℚ :=
  match s.toList with
  | '-' :: rest => (goInt rest 0 false).map Neg.neg
  | cs => goInt cs 0 false
where
  digitVal (c : Char) : Option Nat :=
    if '0' ≤ c ∧ c ≤ '9' then some (c.toNat - 48) else none
  goFrac : List Char → ℚ → ℚ → Option ℚ
    | [], acc, _ => some acc
    | c :: rest, acc, scale =>
        match digitVal c with
        | some d => goFrac rest (acc + d * scale / 10) (scale / 10)
        | none => none
  goInt : List Char → ℚ → Bool → Option ℚ
    | [], acc, seen => if seen then some acc else none
    | '.' :: rest, acc, seen =>
        if seen then goFrac rest acc (1 / 10) else none
    | c :: rest, acc, seen =>
        match digitVal c with
        | some d => goInt rest (acc * 10 + d) true
        | none => none

/-- The first index of a character in a string, if any. -/
def charIdx (c : Char) (s : String) : Option Nat :=
  s.toList.findIdx? (· = c)

/-- Go `strings.HasPrefix`, on character lists. -/
def strStartsWith (s pre : String) : Bool :=
  s.toList.take pre.toList.length == pre.toList

/-- The first `n` characters of a string (Go byte slicing `s[:n]`; every
string sliced in the source is ASCII at the cut). -/
def strTake (s : String) (n : Nat) : String :=
  String.mk (s.toList.take n)

/-- Go `strings.TrimSpace` (ASCII whitespace). -/
def goTrim (s : String) : String :=
  let ws := fun c => c = ' ' ∨ c = '\t' ∨ c = '\n' ∨ c = '\r'
  String.mk (((s.toList.dropWhile ws).reverse.dropWhile ws).reverse)

/-- Split on a single-character separator (all separators used by the
source are single characters). -/
def splitOnChar (sep : Char) (s : String) : List String :=
  (s.toList.foldr
    (fun c acc =>
      if c = sep then [] :: acc else (c :: acc.headD []) :: acc.tail)
    [[]]).map String.mk

/-! ## Canonical record model (`internal/models`)

The `Place` struct as used throughout the source: identity, descriptive
provider fields, user-authored fields, open custom-field map, and
timestamps. -/

/-- A heterogeneous Go `interface{}` value as stored in `CustomFields`. -/
inductive GoValue where
  | str (s : String)
  | num (q : ℚ)
  | int (n : Int)
  | bool (b : Bool)
  | list (xs : List String)
  deriving DecidableEq, Repr

/-- `map[string]interface{}` as an association list (key lists of actual
Go maps are duplicate-free). -/
abbrev CustomFields := List (String × GoValue)

/-- Map read: the value bound to `k`, if any. -/
def lookupCF (m : CustomFields) (k : String) : Option GoValue :=
  (m.find? (·.1 == k)).map (·.2)

/-- Map assignment `m[k] = v`: replace an existing binding or append. -/
def setCF (m : CustomFields) (k : String) (v : GoValue) : CustomFields :=
  if m.any (·.1 == k) then m.map (fun p => if p.1 == k then (k, v) else p)
  else m ++ [(k, v)]

structure Coordinates where
  lat : ℚ
  lng : ℚ
  deriving DecidableEq, Repr

structure Photo where
  reference : String
  localPath : String
  width : Int
  height : Int
  deriving DecidableEq, Repr

structure Review where
  author : String
  rating : Int
  text : String
  time : Int
  profilePhoto : String
  deriving DecidableEq, Repr

/-- The canonical normalized place record. -/
structure Place where
  id : String
  placeID : String
  name : String
  address : String
  coordinates : Coordinates
  categories : List String
  rating : ℚ
  userRatings : Int
  priceLevel : Int
  hours : String
  phone : String
  website : String
  photos : List Photo
  reviews : List Review
  userNotes : String
  userTags : List String
  customFields : CustomFields
  createdAt : Time
  updatedAt : Time
  importedAt : Option Time
  sourceHash : String
  deriving DecidableEq, Repr

/-- `generateID`: the first 12 hex characters of SHA-256 of the provider
id (identical helper in every adapter). -/
def generateID (placeID : String) : String :=
  strTake (sha256hex placeID) 12

/-! ## Google Takeout adapter (`internal/importer/sources` TakeoutImporter,
and the older `internal/importer` converter) -/

structure TakeoutGeometry where
  coordinates : List ℚ
  gtype : String
  deriving DecidableEq, Repr

structure TakeoutLocation where
  name : String
  address : String
  countryCode : String
  deriving DecidableEq, Repr

structure TakeoutProperties where
  date : String
  googleMapsURL : String
  location : Option TakeoutLocation
  comment : String
  name : String
  address : String
  categories : List String
  rating : ℚ
  reviewCount : Int
  priceLevel : Int
  phone : String
  website : String
  hours : Option (List (String × GoValue))
  description : String
  placeID : String
  deriving DecidableEq, Repr

structure TakeoutPlace where
  geometry : TakeoutGeometry
  properties : TakeoutProperties
  deriving DecidableEq, Repr

def insertSorted (kv : String × GoValue) :
    List (String × GoValue) → List (String × GoValue)
  | [] => [kv]
  | x :: xs => if kv.1 ≤ x.1 then kv :: x :: xs else x :: insertSorted kv xs

def goValueJSON : GoValue → String
  | .str s => "\"" ++ s ++ "\""
  | .num q => toString q
  | .int n => toString n
  | .bool b => if b then "true" else "false"
  | .list xs => "[" ++ String.intercalate "," (xs.map (fun s => "\"" ++ s ++ "\"")) ++ "]"

/-- Models `json.Marshal` of a `map[string]interface{}`: keys sorted
lexicographically; string escaping is not modelled. -/
def marshalJSONMap (m : List (String × GoValue)) : String :=
  let sorted := m.foldl (fun acc kv => insertSorted kv acc) []
  "\x7b" ++ String.intercalate ","
      (sorted.map fun kv => "\"" ++ kv.1 ++ "\":" ++ goValueJSON kv.2) ++ "\x7d"

/-- Models `url.Parse(u).Query().Get(key)`: the fragment is cut at the
first `#`, the raw query is everything after the first `?`, parameters
are split on `&` and on the first `=`, keys and values are
query-unescaped, pairs with malformed escapes are skipped. -/
def getQueryParam (u : String) (key : String) : Option String :=
  let noFrag := ((splitOnChar '#' u).headD u)
  match splitOnChar '?' noFrag with
  | _ :: rest@(_ :: _) => go (splitOnChar '&' (String.intercalate "?" rest))
  | _ => none
where
  go : List String → Option String
    | [] => none
    | p :: rest =>
        let kv := match splitOnChar '=' p with
          | [] => (p, "")
          | k :: vs => (k, String.intercalate "=" vs)
        match queryUnescape kv.1, queryUnescape kv.2 with
        | some k, some v => if k = key then some v else go rest
        | _, _ => go rest

/-- The coordinate pattern `^(-?\d+\.?\d*),(-?\d+\.?\d*)$`. -/
def parseCoordPair (s : String) : Option (ℚ × ℚ) :=
  match splitOnChar ',' s with
  | [a, b] =>
      match parseDecimal a, parseDecimal b with
      | some la, some lo => some (la, lo)
      | _, _ => none
  | _ => none

/-- `extractFromGoogleMapsURL`: pull `lat,lng` or a place name out of the
URL's `q` query parameter. -/
def extractFromGoogleMapsURL (gmapsURL : String) : ℚ × ℚ × String :=
  if gmapsURL = "" then (0, 0, "")
  else
    match getQueryParam gmapsURL "q" with
    | none => (0, 0, "")
    | some q =>
        if q = "" then (0, 0, "")
        else
          match parseCoordPair q with
          | some (la, lo) => (la, lo, "")
          | none =>
              let pn := (queryUnescape q).getD ""
              let pn := match charIdx '&' pn with
                | some idx => if 0 < idx then String.mk (pn.toList.take idx) else pn
                | none => pn
              (0, 0, pn)

/-- GeoJSON geometry to coordinates: `[lng, lat]` order, fewer than two
entries yield the `(0,0)` sentinel. -/
def geomCoords (g : TakeoutGeometry) : Coordinates :=
  match g.coordinates with
  | lng :: lat :: _ => { lat := lat, lng := lng }
  | _ => { lat := 0, lng := 0 }

/-- The identity triple (name, address, coordinates) of a Takeout feature
after the nested-location fallback and the Google-Maps-URL extraction. -/
def takeoutIdentity (tp : TakeoutPlace) : String × String × Coordinates :=
  let coords0 := geomCoords tp.geometry
  let na :=
    match tp.properties.location with
    | some loc => (loc.name, loc.address)
    | none => (tp.properties.name, tp.properties.address)
  if na.1 = "" ∧ na.2 = "" ∧ tp.properties.googleMapsURL ≠ "" then
    let e := extractFromGoogleMapsURL tp.properties.googleMapsURL
    if e.1 ≠ 0 ∧ e.2.1 ≠ 0 then
      ("Saved Place (" ++ fmt6 e.1 ++ ", " ++ fmt6 e.2.1 ++ ")", na.2,
        { lat := e.1, lng := e.2.1 })
    else if e.2.2 ≠ "" then (e.2.2, na.2, coords0)
    else (na.1, na.2, coords0)
  else (na.1, na.2, coords0)

/-- The provider id of a Takeout record: the native `place_id` when
present, else `takeout_` plus a hash of name+address, truncated to 16
characters. -/
def takeoutPlaceID (props : TakeoutProperties) (name address : String) : String :=
  if props.placeID ≠ "" then props.placeID
  else strTake ("takeout_" ++ sha256hex (name ++ address)) 16

/-- The source-hash preimage
`fmt.Sprintf("%s|%s|%f,%f|%s", name, address, lat, lng, placeID)`. -/
def takeoutSourceData (name address : String) (c : Coordinates)
    (placeID : String) : String :=
  name ++ "|" ++ address ++ "|" ++ fmt6 c.lat ++ "," ++ fmt6 c.lng ++ "|" ++ placeID

/-- The record built by `convertTakeoutPlace` once the identity triple and
provider id are fixed. -/
def mkTakeoutRecord (props : TakeoutProperties) (name address : String)
    (coords : Coordinates) (placeID : String) (now : Time) : Place :=
  let hours := match props.hours with
    | some h => marshalJSONMap h
    | none => ""
  let cf0 : CustomFields :=
    [("google_maps_url", .str props.googleMapsURL),
     ("imported_from", .str "takeout"),
     ("import_date", .str (formatRFC3339 now))]
  let cf1 := match props.location with
    | some loc =>
        if loc.countryCode ≠ "" then setCF cf0 "country_code" (.str loc.countryCode)
        else cf0
    | none => cf0
  let cf2 := if props.date ≠ "" then setCF cf1 "saved_date" (.str props.date) else cf1
  { id := generateID placeID
    placeID := placeID
    name := name
    address := address
    coordinates := coords
    categories := props.categories
    rating := props.rating
    userRatings := props.reviewCount
    priceLevel := props.priceLevel
    hours := hours
    phone := props.phone
    website := props.website
    photos := []
    reviews := []
    userNotes := props.description
    userTags := []
    customFields := cf2
    createdAt := now
    updatedAt := now
    importedAt := some now
    sourceHash := sha256hex (takeoutSourceData name address coords placeID) }

/-- `sources.convertTakeoutPlace`: drop the feature when it has no usable
identity at all, else emit the canonical record. -/
def convertTakeoutPlace (tp : TakeoutPlace) (now : Time) : Option Place :=
  match takeoutIdentity tp with
  | (name, address, coords) =>
      if name = "" ∧ address = "" ∧ coords.lat = 0 ∧ coords.lng = 0 then none
      else some (mkTakeoutRecord tp.properties name address coords
                  (takeoutPlaceID tp.properties name address) now)

/-- `parseTakeoutPlaces`: convert each feature, keeping only the non-nil
results. -/
def parseTakeoutPlaces (features : List TakeoutPlace) (now : Time) : List Place :=
  features.filterMap (fun f => convertTakeoutPlace f now)

/-- The older converter `internal/importer.convertTakeoutPlace`: no
identity check, no URL fallback, no nested-location support — every
feature yields a record. -/
def convertTakeoutPlaceLegacy (tp : TakeoutPlace) (now : Time) : Place :=
  let coords := geomCoords tp.geometry
  let placeID :=
    if tp.properties.placeID ≠ "" then tp.properties.placeID
    else strTake ("takeout_" ++ sha256hex (tp.properties.name ++ tp.properties.address)) 16
  let hours := match tp.properties.hours with
    | some h => marshalJSONMap h
    | none => ""
  { id := generateID placeID
    placeID := placeID
    name := tp.properties.name
    address := tp.properties.address
    coordinates := coords
    categories := tp.properties.categories
    rating := tp.properties.rating
    userRatings := tp.properties.reviewCount
    priceLevel := tp.properties.priceLevel
    hours := hours
    phone := tp.properties.phone
    website := tp.properties.website
    photos := []
    reviews := []
    userNotes := tp.properties.description
    userTags := []
    customFields :=
      [("google_maps_url", .str tp.properties.googleMapsURL),
       ("imported_from", .str "takeout"),
       ("import_date", .str (formatRFC3339 now))]
    createdAt := now
    updatedAt := now
    importedAt := some now
    sourceHash := sha256hex (takeoutSourceData tp.properties.name
                    tp.properties.address coords placeID) }

/-- The older `internal/importer.parseListFile` loop: every feature is
appended, nothing is dropped. -/
def parseListFileLegacy (features : List TakeoutPlace) (now : Time) : List Place :=
  features.map (convertTakeoutPlaceLegacy · now)

/-! ### Takeout "Saved" CSV path -/

def setAssocNat (m : List (String × Nat)) (k : String) (v : Nat) :
    List (String × Nat) :=
  if m.any (·.1 == k) then m.map (fun p => if p.1 == k then (k, v) else p)
  else m ++ [(k, v)]

/-- `headerMap[strings.TrimSpace(h)] = i` over the header row. -/
def buildHeaderMap (headers : List String) : List (String × Nat) :=
  headers.enum.foldl (fun m p => setAssocNat m (goTrim p.2) p.1) []

def lookupHeader (hm : List (String × Nat)) (k : String) : Option Nat :=
  (hm.find? (·.1 == k)).map (·.2)

/-- `getCSVField`: try column names in order, return the first non-empty
trimmed cell. -/
def getCSVField (record : List String) (hm : List (String × Nat)) :
    List String → String
  | [] => ""
  | n :: rest =>
      match lookupHeader hm n with
      | some idx =>
          if idx < record.length then
            let v := goTrim (record.getD idx "")
            if v ≠ "" then v else getCSVField record hm rest
          else getCSVField record hm rest
      | none => getCSVField record hm rest

/-- `getCSVFloat`: try column names in order, return the first cell that
parses as a float (decimal literals; `strconv.ParseFloat`'s wider syntax
is not exercised here). -/
def getCSVFloat (record : List String) (hm : List (String × Nat)) :
    List String → ℚ
  | [] => 0
  | n :: rest =>
      match lookupHeader hm n with
      | some idx =>
          if idx < record.length then
            match parseDecimal (goTrim (record.getD idx "")) with
            | some q => q
            | none => getCSVFloat record hm rest
          else getCSVFloat record hm rest
      | none => getCSVFloat record hm rest

/-- `parseCSVRecord`: one row of a Takeout "Saved" CSV export to a
record; rows with empty name, address, and URL are dropped. -/
def parseCSVRecord (record : List String) (hm : List (String × Nat))
    (now : Time) : Option Place :=
  let name0 := getCSVField record hm ["Title", "Name", "Place Name"]
  let address := getCSVField record hm ["Address", "Location"]
  let url := getCSVField record hm ["URL", "Link", "Google Maps URL"]
  let note := getCSVField record hm ["Comment", "Note", "Description"]
  let listName := getCSVField record hm ["List", "Collection", "Folder"]
  let lat0 := getCSVFloat record hm ["Latitude", "Lat"]
  let lng0 := getCSVFloat record hm ["Longitude", "Lng", "Long"]
  if name0 = "" ∧ address = "" ∧ url = "" then none
  else
    let nll :=
      if lat0 = 0 ∧ lng0 = 0 ∧ url ≠ "" then
        let e := extractFromGoogleMapsURL url
        let ll := if e.1 ≠ 0 ∧ e.2.1 ≠ 0 then (e.1, e.2.1) else (lat0, lng0)
        (if name0 = "" ∧ e.2.2 ≠ "" then e.2.2 else name0, ll.1, ll.2)
      else (name0, lat0, lng0)
    let name := nll.1
    let lat := nll.2.1
    let lng := nll.2.2
    let placeID := strTake ("saved_" ++ sha256hex (name ++ address ++ url)) 16
    let cf0 : CustomFields :=
      [("imported_from", .str "takeout_saved_csv"),
       ("import_date", .str (formatRFC3339 now))]
    let cf1 := if url ≠ "" then setCF cf0 "google_maps_url" (.str url) else cf0
    let cf2 := if listName ≠ "" then setCF cf1 "original_list" (.str listName) else cf1
    some
      { id := generateID placeID
        placeID := placeID
        name := name
        address := address
        coordinates := { lat := lat, lng := lng }
        categories := []
        rating := 0
        userRatings := 0
        priceLevel := 0
        hours := ""
        phone := ""
        website := ""
        photos := []
        reviews := []
        userNotes := note
        userTags := if listName ≠ "" then [listName] else []
        customFields := cf2
        createdAt := now
        updatedAt := now
        importedAt := some now
        sourceHash := sha256hex (takeoutSourceData name address
                        { lat := lat, lng := lng } placeID) }

/-! ## Apple Maps adapter (`sources.AppleImporter`, KML and GPX) -/

def strContains (s sub : String) : Bool :=
  let subL := sub.toList
  (List.range (s.length + 1)).any (fun i => (s.toList.drop i).take subL.length == subL)

structure KMLData where
  name : String
  value : String
  deriving DecidableEq, Repr

structure KMLPlacemark where
  name : String
  description : String
  pointCoordinates : String
  address : String
  phoneNumber : String
  extendedData : List KMLData
  deriving DecidableEq, Repr

/-- `parseCoordinates`: KML `lng,lat[,alt]`, comma-separated, longitude
first; malformed input yields the `(0,0)` sentinel. -/
def parseKMLCoordinates (coordStr : String) : Coordinates :=
  let parts := splitOnChar ',' (goTrim coordStr)
  if parts.length < 2 then { lat := 0, lng := 0 }
  else
    match parseDecimal (parts.getD 0 ""), parseDecimal (parts.getD 1 "") with
    | some lng, some lat => { lat := lat, lng := lng }
    | _, _ => { lat := 0, lng := 0 }

def extractKMLCategories (pm : KMLPlacemark) : List String :=
  let cats := pm.extendedData.foldl
    (fun acc d =>
      if (d.name.toLower = "category" ∨ d.name.toLower = "type") ∧ d.value ≠ ""
      then acc ++ [d.value] else acc) []
  if cats = [] then
    if strContains pm.name.toLower "restaurant"
        ∨ strContains pm.description.toLower "restaurant"
    then ["Restaurant"] else []
  else cats

/-- `convertKMLPlacemark`: placemarks need a non-empty name and
non-sentinel coordinates. -/
def convertKMLPlacemark (pm : KMLPlacemark) (now : Time) : Option Place :=
  if pm.name = "" then none
  else
    let coords := parseKMLCoordinates pm.pointCoordinates
    if coords.lat = 0 ∧ coords.lng = 0 then none
    else
      let sourceHash := sha256hex ("apple|" ++ pm.name ++ "|" ++ pm.address
        ++ "|" ++ fmt6 coords.lat ++ "," ++ fmt6 coords.lng)
      let placeID := "apple_" ++ strTake sourceHash 16
      let cf0 : CustomFields :=
        [("imported_from", .str "apple_maps"),
         ("import_date", .str (formatRFC3339 now))]
      let cf := pm.extendedData.foldl
        (fun acc d =>
          if d.name ≠ "" ∧ d.value ≠ ""
          then setCF acc ("apple_" ++ d.name) (.str d.value) else acc) cf0
      some
        { id := generateID placeID
          placeID := placeID
          name := pm.name
          address := pm.address
          coordinates := coords
          categories := extractKMLCategories pm
          rating := 0
          userRatings := 0
          priceLevel := 0
          hours := ""
          phone := pm.phoneNumber
          website := ""
          photos := []
          reviews := []
          userNotes := pm.description
          userTags := []
          customFields := cf
          createdAt := now
          updatedAt := now
          importedAt := some now
          sourceHash := sourceHash }

structure GPXWaypoint where
  lat : ℚ
  lon : ℚ
  name : String
  desc : String
  wtype : String
  time : String
  deriving DecidableEq, Repr

/-- `convertGPXWaypoint`: waypoints need a non-empty name. -/
def convertGPXWaypoint (w : GPXWaypoint) (now : Time) : Option Place :=
  if w.name = "" then none
  else
    let coords : Coordinates := { lat := w.lat, lng := w.lon }
    let sourceHash := sha256hex ("gpx|" ++ w.name ++ "|" ++ w.desc
      ++ "|" ++ fmt6 coords.lat ++ "," ++ fmt6 coords.lng)
    let placeID := "gpx_" ++ strTake sourceHash 16
    let cf0 : CustomFields :=
      [("imported_from", .str "gpx"),
       ("import_date", .str (formatRFC3339 now))]
    let cf1 := if w.wtype ≠ "" then setCF cf0 "gpx_type" (.str w.wtype) else cf0
    let cf2 := if w.time ≠ "" then setCF cf1 "gpx_time" (.str w.time) else cf1
    some
      { id := generateID placeID
        placeID := placeID
        name := w.name
        address := ""
        coordinates := coords
        categories := if w.wtype = "" then [] else [w.wtype]
        rating := 0
        userRatings := 0
        priceLevel := 0
        hours := ""
        phone := ""
        website := ""
        photos := []
        reviews := []
        userNotes := w.desc
        userTags := []
        customFields := cf2
        createdAt := now
        updatedAt := now
        importedAt := some now
        sourceHash := sourceHash }

/-! ## OpenStreetMap adapter (`sources.OSMImporter`) -/

structure OSMNode where
  id : Int
  lat : ℚ
  lon : ℚ
  tags : List (String × String)
  deriving DecidableEq, Repr

/-- Go map read `tags[k]` with the zero-value default. -/
def tagGet (tags : List (String × String)) (k : String) : String :=
  ((tags.find? (·.1 == k)).map (·.2)).getD ""

def buildOSMAddress (tags : List (String × String)) : String :=
  String.intercalate ", "
    (([tagGet tags "addr:housenumber", tagGet tags "addr:street",
       tagGet tags "addr:city", tagGet tags "addr:postcode",
       tagGet tags "addr:country"]).filter (· ≠ ""))

def humanizeCategory (tagKey value : String) : String :=
  if tagKey = "amenity" then
    if value = "restaurant" then "Restaurant"
    else if value = "cafe" then "Cafe"
    else if value = "bar" ∨ value = "pub" then "Bar"
    else if value = "bank" then "Bank"
    else if value = "hospital" then "Hospital"
    else if value = "school" then "School"
    else goTitle value
  else if tagKey = "shop" then "Shopping - " ++ goTitle value
  else if tagKey = "tourism" then "Tourism - " ++ goTitle value
  else if tagKey = "leisure" then "Leisure - " ++ goTitle value
  else goTitle value

def extractOSMCategories (tags : List (String × String)) : List String :=
  (["amenity", "shop", "tourism", "leisure", "craft", "office"]).foldl
    (fun acc k =>
      let v := tagGet tags k
      if v ≠ "" then acc ++ [humanizeCategory k v] else acc) []

/-- `convertOSMNode`: nodes need a non-empty `name` tag. -/
def convertOSMNode (node : OSMNode) (now : Time) : Option Place :=
  let name := tagGet node.tags "name"
  if name = "" then none
  else
    let coords : Coordinates := { lat := node.lat, lng := node.lon }
    let sourceHash := sha256hex ("osm|" ++ toString node.id ++ "|" ++ name
      ++ "|" ++ fmt6 coords.lat ++ "," ++ fmt6 coords.lng)
    let placeID := "osm_" ++ toString node.id
    let cf0 : CustomFields :=
      [("imported_from", .str "openstreetmap"),
       ("import_date", .str (formatRFC3339 now)),
       ("osm_id", .int node.id)]
    let cf := node.tags.foldl
      (fun acc kv =>
        if kv.1 ≠ "name" ∧ kv.1 ≠ "phone" ∧ kv.1 ≠ "website"
            ∧ kv.1 ≠ "description" ∧ ¬ strStartsWith kv.1 "addr:"
        then setCF acc ("osm_" ++ kv.1) (.str kv.2) else acc) cf0
    some
      { id := generateID placeID
        placeID := placeID
        name := name
        address := buildOSMAddress node.tags
        coordinates := coords
        categories := extractOSMCategories node.tags
        rating := 0
        userRatings := 0
        priceLevel := 0
        hours := ""
        phone := tagGet node.tags "phone"
        website := tagGet node.tags "website"
        photos := []
        reviews := []
        userNotes := tagGet node.tags "description"
        userTags := []
        customFields := cf
        createdAt := now
        updatedAt := now
        importedAt := some now
        sourceHash := sourceHash }

/-! ## Foursquare/Swarm adapter (`sources.FoursquareImporter`) -/

structure FoursquareContact where
  phone : String
  formattedPhone : String
  twitter : String
  instagram : String
  facebook : String
  deriving DecidableEq, Repr

structure FoursquareLocation where
  address : String
  lat : ℚ
  lng : ℚ
  distance : Int
  postalCode : String
  cc : String
  city : String
  state : String
  country : String
  formattedAddress : List String
  deriving DecidableEq, Repr

structure FoursquareCategory where
  id : String
  name : String
  primary : Bool
  deriving DecidableEq, Repr

structure FoursquareStats where
  checkinsCount : Int
  usersCount : Int
  tipCount : Int
  deriving DecidableEq, Repr

structure FoursquarePrice where
  tier : Int
  message : String
  currency : String
  deriving DecidableEq, Repr

structure FoursquareVenue where
  id : String
  name : String
  contact : FoursquareContact
  location : FoursquareLocation
  categories : List FoursquareCategory
  url : String
  stats : FoursquareStats
  rating : ℚ
  price : FoursquarePrice
  deriving DecidableEq, Repr

structure FoursquarePhoto where
  id : String
  width : Int
  height : Int
  deriving DecidableEq, Repr

structure FoursquareCheckin where
  id : String
  createdAt : Int
  venue : FoursquareVenue
  photos : List FoursquarePhoto
  comments : String
  deriving DecidableEq, Repr

def buildFoursquareAddress (loc : FoursquareLocation) : String :=
  if loc.formattedAddress ≠ [] then String.intercalate ", " loc.formattedAddress
  else
    String.intercalate ", "
      (([loc.address, loc.city, loc.state, loc.postalCode, loc.country]).filter (· ≠ ""))

/-- `convertFoursquareVenue`: venues need a non-empty name; the float64
venue rating's narrowing to float32 is the identity on the rationals
considered here. -/
def convertFoursquareVenue (venue : FoursquareVenue)
    (checkin : FoursquareCheckin) (now : Time) : Option Place :=
  if venue.name = "" then none
  else
    let coords : Coordinates := { lat := venue.location.lat, lng := venue.location.lng }
    let sourceHash := sha256hex ("foursquare|" ++ venue.id ++ "|" ++ venue.name
      ++ "|" ++ fmt6 coords.lat ++ "," ++ fmt6 coords.lng)
    let placeID := "4sq_" ++ venue.id
    let cf0 : CustomFields :=
      [("imported_from", .str "foursquare"),
       ("import_date", .str (formatRFC3339 now)),
       ("foursquare_id", .str venue.id),
       ("checkins_count", .int venue.stats.checkinsCount),
       ("users_count", .int venue.stats.usersCount),
       ("tips_count", .int venue.stats.tipCount)]
    let cf1 := if venue.contact.twitter ≠ ""
      then setCF cf0 "twitter" (.str venue.contact.twitter) else cf0
    let cf2 := if venue.contact.instagram ≠ ""
      then setCF cf1 "instagram" (.str venue.contact.instagram) else cf1
    let cf3 := if venue.contact.facebook ≠ ""
      then setCF cf2 "facebook" (.str venue.contact.facebook) else cf2
    let cf4 := if venue.price.message ≠ ""
      then setCF cf3 "price_message" (.str venue.price.message) else cf3
    let cf5 := if venue.price.currency ≠ ""
      then setCF cf4 "currency" (.str venue.price.currency) else cf4
    some
      { id := generateID placeID
        placeID := placeID
        name := venue.name
        address := buildFoursquareAddress venue.location
        coordinates := coords
        categories := (venue.categories.filter (·.name ≠ "")).map (·.name)
        rating := venue.rating
        userRatings := venue.stats.checkinsCount
        priceLevel := venue.price.tier
        hours := ""
        phone := venue.contact.formattedPhone
        website := venue.url
        photos := checkin.photos.map
          (fun ph => { reference := ph.id, localPath := "",
                       width := ph.width, height := ph.height })
        reviews := []
        userNotes := checkin.comments
        userTags := []
        customFields := cf5
        createdAt := now
        updatedAt := now
        importedAt := some now
        sourceHash := sourceHash }

/-! ## Import-merge engine (`cmd/placeli` `mergeImportedPlace`) -/

/-- The system-field markers of the current import command: a key is a
system field when one of these is a prefix of it (or equals it). -/
def systemFieldMarkers : List String :=
  ["google_", "osm_", "apple_", "foursquare_", "gpx_", "imported_from", "import_date"]

def isImportSystemKey (k : String) : Bool :=
  systemFieldMarkers.any (fun m => strStartsWith k m || k == m)

/-- The custom-field loop of `mergeImportedPlace`: copy every entry of
the existing map whose key the system test does not recognize into the
accumulator (which starts as the imported map). -/
def preserveUserFields (sys : String → Bool) (existingCF acc : CustomFields) :
    CustomFields :=
  existingCF.foldl
    (fun a kv => if sys kv.1 then a else setCF a kv.1 kv.2) acc

/-- `mergeImportedPlace` (import command): start from the imported
record, restore identity (`id`, `created_at`) and user data
(`user_notes`, `user_tags`), copy every non-system custom field from the
existing record, and stamp `last_import` with the merge time. -/
def mergeImportedPlace (existing imported : Place) (now : Time) : Place :=
  let cf1 := preserveUserFields isImportSystemKey existing.customFields
    imported.customFields
  let cf2 := setCF cf1 "last_import" (.str (formatRFC3339 now))
  { imported with
      id := existing.id
      createdAt := existing.createdAt
      updatedAt := now
      userNotes := existing.userNotes
      userTags := existing.userTags
      customFields := cf2 }

/-- The older `imports` command's system markers (prefix test only). -/
def legacySystemMarkers : List String :=
  ["google_", "osm_", "apple_", "foursquare_", "gpx_"]

/-- `mergeImportedPlace` of the older `imports` command: same identity
and user-data restoration, but existing `imported_from`/`import_date`
are kept even though they match system markers, `updated_at` is not
touched, and no merge timestamp is stamped. -/
def mergeImportedPlaceLegacy (existing imported : Place) : Place :=
  let cf := existing.customFields.foldl
    (fun acc kv =>
      if legacySystemMarkers.any (strStartsWith kv.1 ·)
          ∧ kv.1 ≠ "imported_from" ∧ kv.1 ≠ "import_date"
      then acc else setCF acc kv.1 kv.2)
    imported.customFields
  { imported with
      id := existing.id
      createdAt := existing.createdAt
      userNotes := existing.userNotes
      userTags := existing.userTags
      customFields := cf }

/-! ## Enrichment merge (`internal/maps` `EnrichmentService.mergeDetails`) -/

structure OpeningHours where
  openNow : Bool
  weekdayText : List String
  deriving DecidableEq, Repr

structure PlaceReviewD where
  authorName : String
  profilePhotoURL : String
  rating : Int
  text : String
  time : Int
  deriving DecidableEq, Repr

structure PlaceDetails where
  placeID : String
  name : String
  rating : ℚ
  userRatings : Int
  priceLevel : Int
  website : String
  phone : String
  hours : Option OpeningHours
  reviews : List PlaceReviewD
  types : List String
  address : String
  deriving DecidableEq, Repr

structure EnrichmentOptions where
  fetchPhotos : Bool
  fetchReviews : Bool
  photoMaxWidth : Int
  deriving DecidableEq, Repr

/-- The deduplicating category union of `mergeDetails`: existing
categories first, then genuinely new types, no duplicates. -/
def dedupAppend (xs ys : List String) : List String :=
  (xs ++ ys).foldl (fun acc c => if acc.contains c then acc else acc ++ [c]) []

/-- `if details.Rating > 0 && details.Rating != place.Rating`. -/
def mergeRatingD (p : Place) (d : PlaceDetails) : Place :=
  if 0 < d.rating ∧ d.rating ≠ p.rating then { p with rating := d.rating } else p

/-- `if details.UserRatings > 0 && details.UserRatings != place.UserRatings`. -/
def mergeUserRatingsD (p : Place) (d : PlaceDetails) : Place :=
  if 0 < d.userRatings ∧ d.userRatings ≠ p.userRatings
  then { p with userRatings := d.userRatings } else p

/-- `if details.PriceLevel > 0 && details.PriceLevel != place.PriceLevel`. -/
def mergePriceLevelD (p : Place) (d : PlaceDetails) : Place :=
  if 0 < d.priceLevel ∧ d.priceLevel ≠ p.priceLevel
  then { p with priceLevel := d.priceLevel } else p

/-- `if details.Website != "" && details.Website != place.Website`. -/
def mergeWebsiteD (p : Place) (d : PlaceDetails) : Place :=
  if d.website ≠ "" ∧ d.website ≠ p.website
  then { p with website := d.website } else p

/-- `if details.Phone != "" && details.Phone != place.Phone`. -/
def mergePhoneD (p : Place) (d : PlaceDetails) : Place :=
  if d.phone ≠ "" ∧ d.phone ≠ p.phone then { p with phone := d.phone } else p

/-- `if details.Hours != nil && len(details.Hours.WeekdayText) > 0`. -/
def mergeHoursD (p : Place) (d : PlaceDetails) : Place :=
  match d.hours with
  | some h =>
      if h.weekdayText ≠ [] then
        let hoursText := String.intercalate ", " h.weekdayText
        if hoursText ≠ p.hours then { p with hours := hoursText } else p
      else p
  | none => p

/-- The review conversion of `mergeDetails`. -/
def convertReviewsD (d : PlaceDetails) : List Review :=
  d.reviews.map
    (fun r => { author := r.authorName, rating := r.rating, text := r.text,
                time := r.time, profilePhoto := r.profilePhotoURL })

/-- `if opts.FetchReviews && len(details.Reviews) > 0`. -/
def mergeReviewsD (p : Place) (d : PlaceDetails) (opts : EnrichmentOptions) : Place :=
  if opts.fetchReviews ∧ d.reviews ≠ [] then { p with reviews := convertReviewsD d }
  else p

/-- `if len(details.Types) > 0`. -/
def mergeCategoriesD (p : Place) (d : PlaceDetails) : Place :=
  if d.types ≠ [] then { p with categories := dedupAppend p.categories d.types }
  else p

/-- `mergeDetails`: the statements of the Go function in source order —
overwrite each provider scalar only when the incoming value is
non-zero/non-empty and differs from the current one; optionally replace
reviews; union categories. -/
def mergeDetails (place : Place) (details : PlaceDetails)
    (opts : EnrichmentOptions) : Place :=
  let p1 := mergeRatingD place details
  let p2 := mergeUserRatingsD p1 details
  let p3 := mergePriceLevelD p2 details
  let p4 := mergeWebsiteD p3 details
  let p5 := mergePhoneD p4 details
  let p6 := mergeHoursD p5 details
  let p7 := mergeReviewsD p6 details opts
  mergeCategoriesD p7 details

/-! ## Storage collaborator (`internal/database`) and duplicate search -/

/-- The place store: the rows of the `places` table (joined with
`user_data`), as a list. -/
abbrev Storage := List Place

/-- `SavePlace`: upsert by `id`; assigns `created_at` when zero, always
refreshes `updated_at`. -/
def savePlace (st : Storage) (now : Time) (p : Place) : Storage :=
  let p' := { p with
    createdAt := if p.createdAt = 0 then now else p.createdAt
    updatedAt := now }
  if st.any (·.id == p.id) then st.map (fun q => if q.id == p.id then p' else q)
  else st ++ [p']

/-- `FindPlaceBySourceHash`: the first row with the given hash. -/
def findPlaceBySourceHash (st : Storage) (hash : String) : Option Place :=
  st.find? (·.sourceHash == hash)

/-- The provider-id disjunct of `FindDuplicateCandidates`:
`p.place_id = ? AND p.place_id != ''`. -/
def placeIdMatch (query p : Place) : Bool :=
  p.placeID == query.placeID && p.placeID != ""

/-- The proximity disjunct of `FindDuplicateCandidates`:
within `0.0001` degrees on both axes, and all four axes nonzero. -/
def proximityMatch (query p : Place) : Bool :=
  decide (|p.coordinates.lat - query.coordinates.lat| < (1 : ℚ) / 10000
    ∧ |p.coordinates.lng - query.coordinates.lng| < (1 : ℚ) / 10000
    ∧ p.coordinates.lat ≠ 0 ∧ p.coordinates.lng ≠ 0
    ∧ query.coordinates.lat ≠ 0 ∧ query.coordinates.lng ≠ 0)

/-- `FindDuplicateCandidates`: rows matching by provider id or by
coordinate proximity. -/
def findDuplicateCandidates (st : Storage) (query : Place) : List Place :=
  st.filter (fun p => placeIdMatch query p || proximityMatch query p)

/-! ## Import orchestrator (`cmd/placeli` import command) -/

/-- `findExistingPlace`: exact source-hash lookup first, then the first
duplicate candidate. -/
def findExistingPlace (st : Storage) (p : Place) : Option Place :=
  match (if p.sourceHash ≠ "" then findPlaceBySourceHash st p.sourceHash else none) with
  | some existing => some existing
  | none => (findDuplicateCandidates st p).head?

/-- (added, updated, skipped) counters. -/
abbrev Counts := Nat × Nat × Nat

/-- One record of `smartImportPlaces`: resolve, then add / merge-update /
skip; `dryRun` suppresses the write but not the bookkeeping. -/
def smartStep (dryRun force : Bool) (now : Time)
    (acc : Counts × Storage) (p : Place) : Counts × Storage :=
  let c := acc.1
  let st := acc.2
  match findExistingPlace st p with
  | none =>
      ((c.1 + 1, c.2.1, c.2.2), if dryRun then st else savePlace st now p)
  | some existing =>
      if force then
        ((c.1, c.2.1 + 1, c.2.2),
         if dryRun then st else savePlace st now (mergeImportedPlace existing p now))
      else ((c.1, c.2.1, c.2.2 + 1), st)

/-- `smartImportPlaces`: records processed strictly in input order
against the serially-updated store. -/
def smartImportPlaces (st : Storage) (places : List Place)
    (dryRun force : Bool) (now : Time) : Counts × Storage :=
  places.foldl (smartStep dryRun force now) (((0, 0, 0) : Counts), st)

/-- `simpleImportPlaces`: no duplicate checking, every record saved as
new (the model's store never fails, so the error path that counts a
record as skipped is unreachable). -/
def simpleImportPlaces (st : Storage) (places : List Place)
    (dryRun : Bool) (now : Time) : Counts × Storage :=
  places.foldl
    (fun acc p =>
      ((acc.1.1 + 1, acc.1.2.1, acc.1.2.2),
       if dryRun then acc.2 else savePlace acc.2 now p))
    (((0, 0, 0) : Counts), st)

/-! ## Concrete fixtures used by the concrete instances below -/

/-- An all-zero record. -/
def basePlace : Place :=
  { id := "", placeID := "", name := "", address := ""
    coordinates := { lat := 0, lng := 0 }, categories := [], rating := 0
    userRatings := 0, priceLevel := 0, hours := "", phone := "", website := ""
    photos := [], reviews := [], userNotes := "", userTags := []
    customFields := [], createdAt := 0, updatedAt := 0, importedAt := none
    sourceHash := "" }

/-- A record with a provider id and a source hash, used for the import
scenarios. -/
def pDup : Place :=
  { basePlace with id := "dup-id", placeID := "prov-1", name := "Dup",
                   sourceHash := "h1" }

/-- A record at the `(0,0)` sentinel with a name and provider id. -/
def zeroTwin : Place :=
  { basePlace with name := "Same Name", placeID := "pid-zero" }

/-- A real location on the equator: latitude exactly `0`. -/
def pEquator : Place :=
  { basePlace with id := "eq", coordinates := { lat := 0, lng := mkRat 25 2 } }

/-- A query within `0.0001` degrees of `pEquator` on both axes. -/
def qNearEquator : Place :=
  { basePlace with id := "near-eq",
                   coordinates := { lat := mkRat 1 100000, lng := mkRat 25 2 } }

/-! ## Association-list lemmas for the custom-field map -/

theorem lookupCF_cons (kv : String × GoValue) (m : CustomFields) (k : String) :
    lookupCF (kv :: m) k = if kv.1 == k then some kv.2 else lookupCF m k := by
  unfold lookupCF
  rw [List.find?_cons]
  cases h : kv.1 == k
  · simp
  · simp

theorem lookupCF_map_set :
    ∀ (m : CustomFields) (k : String) (v : GoValue),
      m.any (·.1 == k) = true →
      lookupCF (m.map (fun p => if p.1 == k then (k, v) else p)) k = some v := by
  intro m k v
  induction m with
  | nil => intro h; simp at h
  | cons kv m ih =>
      intro h
      simp only [List.map_cons]
      by_cases hk : (kv.1 == k) = true
      · rw [if_pos hk, lookupCF_cons]
        simp
      · rw [if_neg hk, lookupCF_cons, if_neg hk]
        exact ih (by simpa [hk] using h)

theorem lookupCF_map_set_other :
    ∀ (m : CustomFields) (k k' : String) (v : GoValue), k' ≠ k →
      lookupCF (m.map (fun p => if p.1 == k then (k, v) else p)) k'
        = lookupCF m k' := by
  intro m k k' v hne
  induction m with
  | nil => rfl
  | cons kv m ih =>
      simp only [List.map_cons]
      by_cases hk : (kv.1 == k) = true
      · have hkeq : kv.1 = k := by simpa using hk
        rw [if_pos hk, lookupCF_cons, lookupCF_cons]
        have h1 : (k == k') = false := by
          simp only [beq_eq_false_iff_ne, ne_eq]
          exact fun hh => hne hh.symm
        have h2 : (kv.1 == k') = false := by rw [hkeq]; exact h1
        rw [if_neg (by simp [h1]), if_neg (by simp [h2])]
        exact ih
      · rw [if_neg hk, lookupCF_cons, lookupCF_cons]
        by_cases hk' : (kv.1 == k') = true
        · rw [if_pos hk', if_pos hk']
        · rw [if_neg hk', if_neg hk']
          exact ih

theorem lookupCF_append_not_found :
    ∀ (m : CustomFields) (k : String), m.any (·.1 == k) = false →
      ∀ m₂, lookupCF (m ++ m₂) k = lookupCF m₂ k := by
  intro m k
  induction m with
  | nil => intro _ m₂; rfl
  | cons kv m ih =>
      intro h m₂
      rw [List.any_cons, Bool.or_eq_false_iff] at h
      rw [List.cons_append, lookupCF_cons, if_neg (by simp [h.1])]
      exact ih h.2 m₂

theorem lookupCF_append_single_other :
    ∀ (m : CustomFields) (k k' : String) (v : GoValue), k' ≠ k →
      lookupCF (m ++ [(k, v)]) k' = lookupCF m k' := by
  intro m k k' v hne
  induction m with
  | nil =>
      rw [List.nil_append, lookupCF_cons,
        if_neg (by simp only [beq_eq_false_iff_ne, ne_eq, Bool.not_eq_true]
                   exact fun hh => hne hh.symm)]
  | cons kv m ih =>
      rw [List.cons_append, lookupCF_cons, lookupCF_cons]
      by_cases hk' : (kv.1 == k') = true
      · rw [if_pos hk', if_pos hk']
      · rw [if_neg hk', if_neg hk']
        exact ih

/-- Reading back the key just assigned yields the assigned value. -/
theorem lookupCF_setCF_self (m : CustomFields) (k : String) (v : GoValue) :
    lookupCF (setCF m k v) k = some v := by
  unfold setCF
  by_cases h : m.any (·.1 == k) = true
  · rw [if_pos h]
    exact lookupCF_map_set m k v h
  · rw [if_neg h, lookupCF_append_not_found m k (Bool.eq_false_iff.mpr h),
      lookupCF_cons]
    simp

/-- Assignment leaves every other key unchanged. -/
theorem lookupCF_setCF_other (m : CustomFields) (k k' : String) (v : GoValue)
    (hne : k' ≠ k) : lookupCF (setCF m k v) k' = lookupCF m k' := by
  unfold setCF
  by_cases h : m.any (·.1 == k) = true
  · rw [if_pos h]
    exact lookupCF_map_set_other m k k' v hne
  · rw [if_neg h]
    exact lookupCF_append_single_other m k k' v hne

theorem preserveUserFields_cons (sys : String → Bool) (kv : String × GoValue)
    (ex acc : CustomFields) :
    preserveUserFields sys (kv :: ex) acc
      = preserveUserFields sys ex
          (if sys kv.1 then acc else setCF acc kv.1 kv.2) := rfl

/-- Keys absent from the existing map pass through the merge loop. -/
theorem lookupCF_preserve_not_mem (sys : String → Bool) (k : String) :
    ∀ (ex acc : CustomFields), k ∉ ex.map Prod.fst →
      lookupCF (preserveUserFields sys ex acc) k = lookupCF acc k := by
  intro ex
  induction ex with
  | nil => intro acc _; rfl
  | cons kv ex ih =>
      intro acc hmem
      rw [List.map_cons, List.mem_cons] at hmem
      push_neg at hmem
      rw [preserveUserFields_cons, ih _ hmem.2]
      by_cases hs : sys kv.1 = true
      · rw [if_pos hs]
      · rw [if_neg hs]
        exact lookupCF_setCF_other acc kv.1 k kv.2 hmem.1

/-- Keys the system test recognizes are never copied by the merge loop. -/
theorem lookupCF_preserve_sys (sys : String → Bool) (k : String)
    (hk : sys k = true) :
    ∀ (ex acc : CustomFields),
      lookupCF (preserveUserFields sys ex acc) k = lookupCF acc k := by
  intro ex
  induction ex with
  | nil => intro acc; rfl
  | cons kv ex ih =>
      intro acc
      rw [preserveUserFields_cons, ih]
      by_cases hs : sys kv.1 = true
      · rw [if_pos hs]
      · rw [if_neg hs]
        have hne : k ≠ kv.1 := by
          intro hh
          rw [← hh, hk] at hs
          exact hs rfl
        exact lookupCF_setCF_other acc kv.1 k kv.2 hne

/-- A user (non-system) binding of the existing map survives the merge
loop with the existing value. -/
theorem lookupCF_preserve_user (sys : String → Bool) (k : String) (v : GoValue)
    (hk : sys k = false) :
    ∀ (ex acc : CustomFields), (ex.map Prod.fst).Nodup →
      lookupCF ex k = some v →
      lookupCF (preserveUserFields sys ex acc) k = some v := by
  intro ex
  induction ex with
  | nil =>
      intro acc _ hl
      simp [lookupCF] at hl
  | cons kv ex ih =>
      intro acc hnd hl
      rw [List.map_cons, List.nodup_cons] at hnd
      rw [lookupCF_cons] at hl
      rw [preserveUserFields_cons]
      by_cases hkv : (kv.1 == k) = true
      · have hkeq : kv.1 = k := by simpa using hkv
        rw [if_pos hkv] at hl
        have hv : kv.2 = v := by injection hl
        have hnotmem : k ∉ ex.map Prod.fst := by
          rw [← hkeq]
          exact hnd.1
        rw [lookupCF_preserve_not_mem sys k ex _ hnotmem, hkeq, hv, hk]
        rw [if_neg (by simp)]
        exact lookupCF_setCF_self acc k v
      · rw [if_neg hkv] at hl
        exact ih _ hnd.2 hl

/-- The custom-field map of the merge result, spelled out. -/
theorem mergeImportedPlace_customFields (existing incoming : Place) (now : Time) :
    (mergeImportedPlace existing incoming now).customFields
      = setCF (preserveUserFields isImportSystemKey existing.customFields
               incoming.customFields)
          "last_import" (.str (formatRFC3339 now)) := rfl

/-! ## C1 — merge preserves identity and user data -/

/-- C1: for every pair of records, the import merge returns a record
whose `id` and `created_at` equal the existing record's and whose
`user_notes` and `user_tags` equal the existing record's, whatever the
incoming record carries — in both the current (`import`) and the older
(`imports`) merge implementation. -/
theorem merge_preserves_identity_and_user_data
    (existing incoming : Place) (now : Time) :
    (mergeImportedPlace existing incoming now).id = existing.id
    ∧ (mergeImportedPlace existing incoming now).createdAt = existing.createdAt
    ∧ (mergeImportedPlace existing incoming now).userNotes = existing.userNotes
    ∧ (mergeImportedPlace existing incoming now).userTags = existing.userTags
    ∧ (mergeImportedPlaceLegacy existing incoming).id = existing.id
    ∧ (mergeImportedPlaceLegacy existing incoming).createdAt = existing.createdAt
    ∧ (mergeImportedPlaceLegacy existing incoming).userNotes = existing.userNotes
    ∧ (mergeImportedPlaceLegacy existing incoming).userTags = existing.userTags :=
  ⟨rfl, rfl, rfl, rfl, rfl, rfl, rfl, rfl⟩

/-! ## C6 — the (0,0) sentinel never matches by proximity -/

/-- C6: two records both at the `(0,0)` sentinel are never proximity
matches of one another, in either direction, however the other fields
(name included) compare; consequently any duplicate candidate the search
returns for such a pair matched by provider id, not by proximity. -/
theorem sentinel_never_proximity_duplicate (a b : Place)
    (ha : a.coordinates = { lat := 0, lng := 0 })
    (hb : b.coordinates = { lat := 0, lng := 0 }) :
    proximityMatch a b = false ∧ proximityMatch b a = false
    ∧ ∀ st : Storage, b ∈ findDuplicateCandidates st a →
        placeIdMatch a b = true := by
  have h1 : proximityMatch a b = false := by
    unfold proximityMatch
    apply decide_eq_false
    rintro ⟨-, -, hlat, -, -, -⟩
    rw [hb] at hlat
    exact hlat rfl
  have h2 : proximityMatch b a = false := by
    unfold proximityMatch
    apply decide_eq_false
    rintro ⟨-, -, hlat, -, -, -⟩
    rw [ha] at hlat
    exact hlat rfl
  refine ⟨h1, h2, fun st hmem => ?_⟩
  have hpred := (List.mem_filter.mp hmem).2
  rw [h1, Bool.or_false] at hpred
  exact hpred

/-- C6 witness: a concrete pair of identical records at `(0,0)`. -/
theorem sentinel_never_proximity_duplicate_witness :
    proximityMatch zeroTwin zeroTwin = false
    ∧ (zeroTwin ∈ findDuplicateCandidates [zeroTwin] zeroTwin →
        placeIdMatch zeroTwin zeroTwin = true) := by
  have h := sentinel_never_proximity_duplicate zeroTwin zeroTwin rfl rfl
  exact ⟨h.1, h.2.2 [zeroTwin]⟩

/-! ## C10 — any zero axis disables proximity matching -/

/-- C10: coordinate-proximity matching is disabled whenever any single
axis of either the query or the stored record is exactly `0` — strictly
stronger than excluding only the `(0,0)` pair; a candidate returned in
that situation matched by provider id. -/
theorem zero_axis_disables_proximity (q p : Place)
    (h : q.coordinates.lat = 0 ∨ q.coordinates.lng = 0
       ∨ p.coordinates.lat = 0 ∨ p.coordinates.lng = 0) :
    proximityMatch q p = false
    ∧ ∀ st : Storage, p ∈ findDuplicateCandidates st q →
        placeIdMatch q p = true := by
  have h1 : proximityMatch q p = false := by
    unfold proximityMatch
    apply decide_eq_false
    rintro ⟨-, -, hplat, hplng, hqlat, hqlng⟩
    rcases h with h | h | h | h
    exacts [hqlat h, hqlng h, hplat h, hplng h]
  refine ⟨h1, fun st hmem => ?_⟩
  have hpred := (List.mem_filter.mp hmem).2
  rw [h1, Bool.or_false] at hpred
  exact hpred

/-- C10 witness: a stored record at `(0, 12.5)` — a real equator
location — is not a proximity candidate even for a query within
`0.0001` degrees on both axes. -/
theorem zero_axis_disables_proximity_witness :
    proximityMatch qNearEquator pEquator = false
    ∧ (pEquator ∈ findDuplicateCandidates [pEquator] qNearEquator →
        placeIdMatch qNearEquator pEquator = true) := by
  have h := zero_axis_disables_proximity qNearEquator pEquator
    (Or.inr (Or.inr (Or.inl rfl)))
  exact ⟨h.1, h.2 [pEquator]⟩

/-! ## C3 — smart import: add / skip / update bookkeeping -/

/-- C3: per record, smart import adds when resolution finds nothing,
skips (without writing) when a match is found and `force` is false, and
saves the merge result when a match is found and `force` is true;
consequently importing a record with a non-empty source hash twice into
an empty store with `force = false` yields `(1,0,0)` then `(0,0,1)`. -/
theorem smart_import_bookkeeping (st : Storage) (p : Place)
    (dryRun force : Bool) (now : Time) :
    (findExistingPlace st p = none →
      smartStep dryRun force now ((0, 0, 0), st) p
        = ((1, 0, 0), if dryRun then st else savePlace st now p))
    ∧ (∀ existing, findExistingPlace st p = some existing → force = false →
        smartStep dryRun force now ((0, 0, 0), st) p = ((0, 0, 1), st))
    ∧ (∀ existing, findExistingPlace st p = some existing → force = true →
        smartStep dryRun force now ((0, 0, 0), st) p
          = ((0, 1, 0), if dryRun then st
              else savePlace st now (mergeImportedPlace existing p now)))
    ∧ (p.sourceHash ≠ "" →
        (smartImportPlaces [] [p] false false now).1 = (1, 0, 0)
        ∧ (smartImportPlaces (smartImportPlaces [] [p] false false now).2
            [p] false false now).1 = (0, 0, 1)) := by
  refine ⟨?_, ?_, ?_, ?_⟩
  · intro h
    simp [smartStep, h]
  · intro existing h hforce
    subst hforce
    simp [smartStep, h]
  · intro existing h hforce
    subst hforce
    simp [smartStep, h]
  · intro hs
    have hempty : findExistingPlace [] p = none := by
      simp [findExistingPlace, findPlaceBySourceHash, findDuplicateCandidates]
    have h1 : smartImportPlaces [] [p] false false now
        = ((1, 0, 0), savePlace [] now p) := by
      simp [smartImportPlaces, smartStep, hempty]
    have hsave : savePlace [] now p
        = [{ p with
              createdAt := (if p.createdAt = 0 then now else p.createdAt),
              updatedAt := now }] := by
      simp [savePlace]
    have hfind2 : findExistingPlace (savePlace [] now p) p
        = some { p with
            createdAt := (if p.createdAt = 0 then now else p.createdAt),
            updatedAt := now } := by
      rw [hsave]
      simp [findExistingPlace, findPlaceBySourceHash, hs]
    refine ⟨by rw [h1], ?_⟩
    rw [h1]
    simp [smartImportPlaces, smartStep, hfind2]

/-- C3 witness: the concrete record `pDup` imported twice into an empty
store. -/
theorem smart_import_bookkeeping_witness :
    smartStep false false 1 ((0, 0, 0), []) pDup
      = ((1, 0, 0), if false then ([] : Storage) else savePlace [] 1 pDup)
    ∧ (smartImportPlaces [] [pDup] false false 1).1 = (1, 0, 0)
    ∧ (smartImportPlaces (smartImportPlaces [] [pDup] false false 1).2
        [pDup] false false 1).1 = (0, 0, 1) := by
  have h := smart_import_bookkeeping [] pDup false false 1
  exact ⟨h.1 (by decide), (h.2.2.2 (by decide)).1, (h.2.2.2 (by decide)).2⟩

/-! ## C4 — dry-run effect on storage and counts -/

/-- A dry-run smart step leaves the store untouched. -/
theorem smartStep_dry_state (force : Bool) (now : Time) (c : Counts)
    (st : Storage) (p : Place) :
    (smartStep true force now (c, st) p).2 = st := by
  unfold smartStep
  cases h : findExistingPlace st p with
  | none => simp [h]
  | some existing => cases force <;> simp [h]

/-- A dry-run smart import leaves the store untouched, from any starting
counters. -/
theorem smart_import_dry_state (force : Bool) (now : Time) :
    ∀ (ps : List Place) (c : Counts) (st : Storage),
      (ps.foldl (smartStep true force now) (c, st)).2 = st := by
  intro ps
  induction ps with
  | nil => intro c st; rfl
  | cons p ps ih =>
      intro c st
      rcases hs : smartStep true force now (c, st) p with ⟨c', st'⟩
      have hst : st' = st := by
        have := smartStep_dry_state force now c st p
        rw [hs] at this
        exact this
      rw [List.foldl_cons, hs, hst]
      exact ih c' st

/-- Simple import always counts every record as added, dry or not. -/
theorem simple_import_counts (now : Time) (dry : Bool) :
    ∀ (ps : List Place) (a u s : Nat) (st : Storage),
      (ps.foldl
        (fun acc p =>
          ((acc.1.1 + 1, acc.1.2.1, acc.1.2.2),
           if dry then acc.2 else savePlace acc.2 now p))
        ((a, u, s), st)).1 = (a + ps.length, u, s) := by
  intro ps
  induction ps with
  | nil => intro a u s st; simp
  | cons p ps ih =>
      intro a u s st
      rw [List.foldl_cons]
      rw [ih (a + 1) u s]
      simp [Nat.add_assoc, Nat.add_comm 1 ps.length]

/-- C4 (amended): a dry run writes nothing, so running it twice on the
same input returns the identical count tuple with storage unchanged in
between; for a single-record batch (and for simple mode on any batch)
the dry-run counts equal the committed run's counts.  (The claim's
unrestricted count equality fails — see the counterexample — because a
committed run resolves later records against its own earlier writes,
while a dry run resolves every record against the untouched store.) -/
theorem dry_run_side_effect_free (st : Storage) (ps : List Place)
    (force : Bool) (now : Time) :
    (smartImportPlaces st ps true force now).2 = st
    ∧ (smartImportPlaces ((smartImportPlaces st ps true force now).2)
        ps true force now).1
        = (smartImportPlaces st ps true force now).1
    ∧ (∀ p : Place, (smartImportPlaces st [p] true force now).1
        = (smartImportPlaces st [p] false force now).1)
    ∧ (∀ dry : Bool, (simpleImportPlaces st ps dry now).1
        = (simpleImportPlaces st ps (!dry) now).1) := by
  have hdry : (smartImportPlaces st ps true force now).2 = st :=
    smart_import_dry_state force now ps ((0, 0, 0) : Counts) st
  refine ⟨hdry, ?_, ?_, ?_⟩
  · rw [hdry]
  · intro p
    simp only [smartImportPlaces, List.foldl_cons, List.foldl_nil]
    unfold smartStep
    cases h : findExistingPlace st p with
    | none => simp [h]
    | some existing => cases force <;> simp [h]
  · intro dry
    unfold simpleImportPlaces
    rw [simple_import_counts now dry ps 0 0 0 st,
       simple_import_counts now (!dry) ps 0 0 0 st]

/-- C4 counterexample: a batch holding the identical record twice.  The
dry run reports `added = 2` while the committed run it claims to predict
reports `added = 1, skipped = 1`. -/
theorem dry_run_counts_counterexample :
    (smartImportPlaces [] [pDup, pDup] true false 1).1 = (2, 0, 0)
    ∧ (smartImportPlaces [] [pDup, pDup] false false 1).1 = (1, 0, 1)
    ∧ ((2, 0, 0) : Counts) ≠ ((1, 0, 1) : Counts) := by decide

/-! ## C2 — which custom fields the import merge keeps -/

/-- An existing record carrying only a `last_sync` stamp. -/
def exLastSync : Place :=
  { basePlace with customFields := [("last_sync", .str "old")] }

/-- An incoming record carrying a newer `last_sync` stamp. -/
def incLastSync : Place :=
  { basePlace with customFields := [("last_sync", .str "new")] }

/-- C2 counterexample: `last_sync` is in the specification's fixed
system-field set, so the claim requires the merged map to take it from
`incoming`; the code's system test (prefix match against
`google_/osm_/apple_/foursquare_/gpx_/imported_from/import_date`) does
not recognize it and copies `existing`'s value over `incoming`'s. -/
theorem merge_custom_fields_counterexample :
    lookupCF (mergeImportedPlace exLastSync incLastSync 5).customFields "last_sync"
        = some (.str "old")
    ∧ lookupCF (mergeImportedPlace exLastSync incLastSync 5).customFields "last_sync"
        ≠ some (.str "new") := by decide

/-- C2 (amended): in the merged record's custom fields, `last_import` is
stamped with the merge time; every key of `existing.custom_fields` that
the code's marker test (`google_`, `osm_`, `apple_`, `foursquare_`,
`gpx_`, `imported_from`, `import_date`, by prefix) does not recognize —
`last_sync`/`last_import` included — keeps `existing`'s value; keys the
test recognizes, and keys absent from `existing`, are read from
`incoming`.  (`existing`'s key list is duplicate-free, being a Go map.) -/
theorem merge_custom_fields_amended (existing incoming : Place) (now : Time)
    (hnd : (existing.customFields.map Prod.fst).Nodup) :
    lookupCF (mergeImportedPlace existing incoming now).customFields "last_import"
        = some (.str (formatRFC3339 now))
    ∧ (∀ k v, k ≠ "last_import" → isImportSystemKey k = false →
        lookupCF existing.customFields k = some v →
        lookupCF (mergeImportedPlace existing incoming now).customFields k = some v)
    ∧ (∀ k, k ≠ "last_import" → isImportSystemKey k = true →
        lookupCF (mergeImportedPlace existing incoming now).customFields k
          = lookupCF incoming.customFields k)
    ∧ (∀ k, k ≠ "last_import" → k ∉ existing.customFields.map Prod.fst →
        lookupCF (mergeImportedPlace existing incoming now).customFields k
          = lookupCF incoming.customFields k) := by
  refine ⟨?_, ?_, ?_, ?_⟩
  · rw [mergeImportedPlace_customFields]
    exact lookupCF_setCF_self _ _ _
  · intro k v hlast hsys hv
    rw [mergeImportedPlace_customFields, lookupCF_setCF_other _ _ _ _ hlast]
    exact lookupCF_preserve_user isImportSystemKey k v hsys
      existing.customFields incoming.customFields hnd hv
  · intro k hlast hsys
    rw [mergeImportedPlace_customFields, lookupCF_setCF_other _ _ _ _ hlast]
    exact lookupCF_preserve_sys isImportSystemKey k hsys
      existing.customFields incoming.customFields
  · intro k hlast hmem
    rw [mergeImportedPlace_customFields, lookupCF_setCF_other _ _ _ _ hlast]
    exact lookupCF_preserve_not_mem isImportSystemKey k
      existing.customFields incoming.customFields hmem

/-- An existing record with one user field and one system field. -/
def exUserField : Place :=
  { basePlace with
      customFields := [("my_note_field", .str "keep"), ("osm_id", .int 5)] }

/-- An incoming record refreshing the system field. -/
def incUserField : Place :=
  { basePlace with customFields := [("osm_id", .int 9)] }

/-! ## C7 — enrichment merge conservatism -/

theorem mergeRatingD_eq (p : Place) (d : PlaceDetails) :
    mergeRatingD p d = { p with rating := (mergeRatingD p d).rating } := by
  unfold mergeRatingD
  split <;> rfl

theorem mergeUserRatingsD_eq (p : Place) (d : PlaceDetails) :
    mergeUserRatingsD p d
      = { p with userRatings := (mergeUserRatingsD p d).userRatings } := by
  unfold mergeUserRatingsD
  split <;> rfl

theorem mergePriceLevelD_eq (p : Place) (d : PlaceDetails) :
    mergePriceLevelD p d
      = { p with priceLevel := (mergePriceLevelD p d).priceLevel } := by
  unfold mergePriceLevelD
  split <;> rfl

theorem mergeWebsiteD_eq (p : Place) (d : PlaceDetails) :
    mergeWebsiteD p d = { p with website := (mergeWebsiteD p d).website } := by
  unfold mergeWebsiteD
  split <;> rfl

theorem mergePhoneD_eq (p : Place) (d : PlaceDetails) :
    mergePhoneD p d = { p with phone := (mergePhoneD p d).phone } := by
  unfold mergePhoneD
  split <;> rfl

theorem mergeHoursD_eq (p : Place) (d : PlaceDetails) :
    mergeHoursD p d = { p with hours := (mergeHoursD p d).hours } := by
  unfold mergeHoursD
  cases d.hours with
  | none => rfl
  | some h =>
      dsimp only
      split
      · split <;> rfl
      · rfl

theorem mergeReviewsD_eq (p : Place) (d : PlaceDetails) (opts : EnrichmentOptions) :
    mergeReviewsD p d opts
      = { p with reviews := (mergeReviewsD p d opts).reviews } := by
  unfold mergeReviewsD
  split <;> rfl

theorem mergeCategoriesD_eq (p : Place) (d : PlaceDetails) :
    mergeCategoriesD p d
      = { p with categories := (mergeCategoriesD p d).categories } := by
  unfold mergeCategoriesD
  split <;> rfl

theorem mergeDetails_rating (place : Place) (details : PlaceDetails)
    (opts : EnrichmentOptions) :
    (mergeDetails place details opts).rating
      = if 0 < details.rating ∧ details.rating ≠ place.rating
        then details.rating else place.rating := by
  simp only [mergeDetails]
  rw [mergeCategoriesD_eq]
  dsimp only
  rw [mergeReviewsD_eq]
  dsimp only
  rw [mergeHoursD_eq]
  dsimp only
  rw [mergePhoneD_eq]
  dsimp only
  rw [mergeWebsiteD_eq]
  dsimp only
  rw [mergePriceLevelD_eq]
  dsimp only
  rw [mergeUserRatingsD_eq]
  dsimp only
  unfold mergeRatingD
  rw [apply_ite Place.rating]

theorem mergeDetails_userRatings (place : Place) (details : PlaceDetails)
    (opts : EnrichmentOptions) :
    (mergeDetails place details opts).userRatings
      = if 0 < details.userRatings ∧ details.userRatings ≠ place.userRatings
        then details.userRatings else place.userRatings := by
  simp only [mergeDetails]
  rw [mergeCategoriesD_eq]
  dsimp only
  rw [mergeReviewsD_eq]
  dsimp only
  rw [mergeHoursD_eq]
  dsimp only
  rw [mergePhoneD_eq]
  dsimp only
  rw [mergeWebsiteD_eq]
  dsimp only
  rw [mergePriceLevelD_eq]
  dsimp only
  have h1 : (mergeRatingD place details).userRatings = place.userRatings := by
    rw [mergeRatingD_eq]
  unfold mergeUserRatingsD
  rw [apply_ite Place.userRatings]
  dsimp only
  rw [h1]

theorem mergeDetails_priceLevel (place : Place) (details : PlaceDetails)
    (opts : EnrichmentOptions) :
    (mergeDetails place details opts).priceLevel
      = if 0 < details.priceLevel ∧ details.priceLevel ≠ place.priceLevel
        then details.priceLevel else place.priceLevel := by
  simp only [mergeDetails]
  rw [mergeCategoriesD_eq]
  dsimp only
  rw [mergeReviewsD_eq]
  dsimp only
  rw [mergeHoursD_eq]
  dsimp only
  rw [mergePhoneD_eq]
  dsimp only
  rw [mergeWebsiteD_eq]
  dsimp only
  have h1 : (mergeUserRatingsD (mergeRatingD place details) details).priceLevel
      = place.priceLevel := by
    rw [mergeUserRatingsD_eq]
    dsimp only
    rw [mergeRatingD_eq]
  unfold mergePriceLevelD
  rw [apply_ite Place.priceLevel]
  dsimp only
  rw [h1]

theorem mergeDetails_website (place : Place) (details : PlaceDetails)
    (opts : EnrichmentOptions) :
    (mergeDetails place details opts).website
      = if details.website ≠ "" ∧ details.website ≠ place.website
        then details.website else place.website := by
  simp only [mergeDetails]
  rw [mergeCategoriesD_eq]
  dsimp only
  rw [mergeReviewsD_eq]
  dsimp only
  rw [mergeHoursD_eq]
  dsimp only
  rw [mergePhoneD_eq]
  dsimp only
  have h1 : (mergePriceLevelD (mergeUserRatingsD (mergeRatingD place details)
      details) details).website = place.website := by
    rw [mergePriceLevelD_eq]
    dsimp only
    rw [mergeUserRatingsD_eq]
    dsimp only
    rw [mergeRatingD_eq]
  unfold mergeWebsiteD
  rw [apply_ite Place.website]
  dsimp only
  rw [h1]

theorem mergeDetails_phone (place : Place) (details : PlaceDetails)
    (opts : EnrichmentOptions) :
    (mergeDetails place details opts).phone
      = if details.phone ≠ "" ∧ details.phone ≠ place.phone
        then details.phone else place.phone := by
  simp only [mergeDetails]
  rw [mergeCategoriesD_eq]
  dsimp only
  rw [mergeReviewsD_eq]
  dsimp only
  rw [mergeHoursD_eq]
  dsimp only
  have h1 : (mergeWebsiteD (mergePriceLevelD (mergeUserRatingsD
      (mergeRatingD place details) details) details) details).phone
      = place.phone := by
    rw [mergeWebsiteD_eq]
    dsimp only
    rw [mergePriceLevelD_eq]
    dsimp only
    rw [mergeUserRatingsD_eq]
    dsimp only
    rw [mergeRatingD_eq]
  unfold mergePhoneD
  rw [apply_ite Place.phone]
  dsimp only
  rw [h1]

theorem mergeHoursD_hours (p : Place) (d : PlaceDetails) :
    (mergeHoursD p d).hours
      = match d.hours with
        | some h =>
            if h.weekdayText ≠ []
                ∧ String.intercalate ", " h.weekdayText ≠ p.hours
            then String.intercalate ", " h.weekdayText else p.hours
        | none => p.hours := by
  unfold mergeHoursD
  cases d.hours with
  | none => rfl
  | some h =>
      dsimp only
      by_cases h1 : h.weekdayText ≠ []
      · rw [if_pos h1]
        by_cases h2 : String.intercalate ", " h.weekdayText ≠ p.hours
        · rw [if_pos h2, if_pos ⟨h1, h2⟩]
        · rw [if_neg h2, if_neg (fun hc => h2 hc.2)]
      · rw [if_neg h1, if_neg (fun hc => h1 hc.1)]

theorem mergeDetails_hours (place : Place) (details : PlaceDetails)
    (opts : EnrichmentOptions) :
    (mergeDetails place details opts).hours
      = match details.hours with
        | some h =>
            if h.weekdayText ≠ []
                ∧ String.intercalate ", " h.weekdayText ≠ place.hours
            then String.intercalate ", " h.weekdayText else place.hours
        | none => place.hours := by
  simp only [mergeDetails]
  rw [mergeCategoriesD_eq]
  dsimp only
  rw [mergeReviewsD_eq]
  dsimp only
  have h1 : (mergePhoneD (mergeWebsiteD (mergePriceLevelD (mergeUserRatingsD
      (mergeRatingD place details) details) details) details) details).hours
      = place.hours := by
    rw [mergePhoneD_eq]
    dsimp only
    rw [mergeWebsiteD_eq]
    dsimp only
    rw [mergePriceLevelD_eq]
    dsimp only
    rw [mergeUserRatingsD_eq]
    dsimp only
    rw [mergeRatingD_eq]
  rw [mergeHoursD_hours, h1]

/-- C7: in the enrichment merge, each provider scalar (rating,
rating_count, price_level, website, phone, hours) is overwritten only
when the incoming value is non-zero/non-empty and differs from the
stored one; an incoming zero or empty value always leaves the stored
value unchanged. -/
theorem enrichment_merge_conservatism (place : Place) (details : PlaceDetails)
    (opts : EnrichmentOptions) :
    ((¬ 0 < details.rating) →
      (mergeDetails place details opts).rating = place.rating)
    ∧ ((mergeDetails place details opts).rating ≠ place.rating →
        0 < details.rating ∧ details.rating ≠ place.rating
        ∧ (mergeDetails place details opts).rating = details.rating)
    ∧ ((¬ 0 < details.userRatings) →
        (mergeDetails place details opts).userRatings = place.userRatings)
    ∧ ((mergeDetails place details opts).userRatings ≠ place.userRatings →
        0 < details.userRatings ∧ details.userRatings ≠ place.userRatings
        ∧ (mergeDetails place details opts).userRatings = details.userRatings)
    ∧ ((¬ 0 < details.priceLevel) →
        (mergeDetails place details opts).priceLevel = place.priceLevel)
    ∧ ((mergeDetails place details opts).priceLevel ≠ place.priceLevel →
        0 < details.priceLevel ∧ details.priceLevel ≠ place.priceLevel
        ∧ (mergeDetails place details opts).priceLevel = details.priceLevel)
    ∧ (details.website = "" →
        (mergeDetails place details opts).website = place.website)
    ∧ ((mergeDetails place details opts).website ≠ place.website →
        details.website ≠ "" ∧ details.website ≠ place.website
        ∧ (mergeDetails place details opts).website = details.website)
    ∧ (details.phone = "" →
        (mergeDetails place details opts).phone = place.phone)
    ∧ ((mergeDetails place details opts).phone ≠ place.phone →
        details.phone ≠ "" ∧ details.phone ≠ place.phone
        ∧ (mergeDetails place details opts).phone = details.phone)
    ∧ ((details.hours = none ∨ ∃ h, details.hours = some h ∧ h.weekdayText = []) →
        (mergeDetails place details opts).hours = place.hours)
    ∧ ((mergeDetails place details opts).hours ≠ place.hours →
        ∃ h, details.hours = some h ∧ h.weekdayText ≠ []
          ∧ (mergeDetails place details opts).hours
              = String.intercalate ", " h.weekdayText) := by
  have hr := mergeDetails_rating place details opts
  have hu := mergeDetails_userRatings place details opts
  have hp := mergeDetails_priceLevel place details opts
  have hw := mergeDetails_website place details opts
  have hph := mergeDetails_phone place details opts
  have hh := mergeDetails_hours place details opts
  refine ⟨?_, ?_, ?_, ?_, ?_, ?_, ?_, ?_, ?_, ?_, ?_, ?_⟩
  · intro hz
    rw [hr, if_neg (fun hc => hz hc.1)]
  · intro hne
    by_cases hc : 0 < details.rating ∧ details.rating ≠ place.rating
    · exact ⟨hc.1, hc.2, by rw [hr, if_pos hc]⟩
    · rw [hr, if_neg hc] at hne
      exact absurd rfl hne
  · intro hz
    rw [hu, if_neg (fun hc => hz hc.1)]
  · intro hne
    by_cases hc : 0 < details.userRatings ∧ details.userRatings ≠ place.userRatings
    · exact ⟨hc.1, hc.2, by rw [hu, if_pos hc]⟩
    · rw [hu, if_neg hc] at hne
      exact absurd rfl hne
  · intro hz
    rw [hp, if_neg (fun hc => hz hc.1)]
  · intro hne
    by_cases hc : 0 < details.priceLevel ∧ details.priceLevel ≠ place.priceLevel
    · exact ⟨hc.1, hc.2, by rw [hp, if_pos hc]⟩
    · rw [hp, if_neg hc] at hne
      exact absurd rfl hne
  · intro hz
    rw [hw, if_neg (fun hc => hc.1 hz)]
  · intro hne
    by_cases hc : details.website ≠ "" ∧ details.website ≠ place.website
    · exact ⟨hc.1, hc.2, by rw [hw, if_pos hc]⟩
    · rw [hw, if_neg hc] at hne
      exact absurd rfl hne
  · intro hz
    rw [hph, if_neg (fun hc => hc.1 hz)]
  · intro hne
    by_cases hc : details.phone ≠ "" ∧ details.phone ≠ place.phone
    · exact ⟨hc.1, hc.2, by rw [hph, if_pos hc]⟩
    · rw [hph, if_neg hc] at hne
      exact absurd rfl hne
  · intro hz
    rcases hz with hz | ⟨h, hsome, hwd⟩
    · rw [hh, hz]
    · rw [hh, hsome]
      dsimp only
      rw [if_neg (fun hc => hc.1 hwd)]
  · intro hne
    rw [hh] at hne
    cases hhh : details.hours with
    | none =>
        rw [hhh] at hne
        exact absurd rfl hne
    | some h =>
        rw [hhh] at hne
        dsimp only at hne
        by_cases hc : h.weekdayText ≠ []
            ∧ String.intercalate ", " h.weekdayText ≠ place.hours
        · refine ⟨h, rfl, hc.1, ?_⟩
          rw [hh, hhh]
          dsimp only
          rw [if_pos hc]
        · rw [if_neg hc] at hne
          exact absurd rfl hne

/-- The stored record of the C7 witness. -/
def enrichedPlace : Place :=
  { basePlace with rating := mkRat 7 2, userRatings := 10, priceLevel := 2,
                   website := "w", phone := "p", hours := "H" }

/-- Enrichment details that are entirely zero/empty. -/
def emptyDetails : PlaceDetails :=
  { placeID := "", name := "", rating := 0, userRatings := 0, priceLevel := 0,
    website := "", phone := "", hours := none, reviews := [], types := [],
    address := "" }

/-- C7 witness: all-zero/empty incoming details leave every scalar of a
concrete stored record unchanged. -/
theorem enrichment_merge_conservatism_witness :
    (mergeDetails enrichedPlace emptyDetails
        { fetchPhotos := false, fetchReviews := false, photoMaxWidth := 0 }).rating
      = enrichedPlace.rating
    ∧ (mergeDetails enrichedPlace emptyDetails
        { fetchPhotos := false, fetchReviews := false, photoMaxWidth := 0 }).userRatings
      = enrichedPlace.userRatings
    ∧ (mergeDetails enrichedPlace emptyDetails
        { fetchPhotos := false, fetchReviews := false, photoMaxWidth := 0 }).priceLevel
      = enrichedPlace.priceLevel
    ∧ (mergeDetails enrichedPlace emptyDetails
        { fetchPhotos := false, fetchReviews := false, photoMaxWidth := 0 }).website
      = enrichedPlace.website
    ∧ (mergeDetails enrichedPlace emptyDetails
        { fetchPhotos := false, fetchReviews := false, photoMaxWidth := 0 }).phone
      = enrichedPlace.phone
    ∧ (mergeDetails enrichedPlace emptyDetails
        { fetchPhotos := false, fetchReviews := false, photoMaxWidth := 0 }).hours
      = enrichedPlace.hours := by
  have h := enrichment_merge_conservatism enrichedPlace emptyDetails
    { fetchPhotos := false, fetchReviews := false, photoMaxWidth := 0 }
  exact ⟨h.1 (by decide), h.2.2.1 (by decide), h.2.2.2.2.1 (by decide),
    h.2.2.2.2.2.2.1 rfl, h.2.2.2.2.2.2.2.2.1 rfl,
    h.2.2.2.2.2.2.2.2.2.2.1 (Or.inl rfl)⟩

/-- C2 witness: on concrete records, the user field keeps the existing
value, the system field is taken from incoming, and `last_import` is
stamped. -/
theorem merge_custom_fields_amended_witness :
    lookupCF (mergeImportedPlace exUserField incUserField 4).customFields
        "last_import" = some (.str (formatRFC3339 4))
    ∧ lookupCF (mergeImportedPlace exUserField incUserField 4).customFields
        "my_note_field" = some (.str "keep")
    ∧ lookupCF (mergeImportedPlace exUserField incUserField 4).customFields
        "osm_id" = some (.int 9) := by
  have h := merge_custom_fields_amended exUserField incUserField 4 (by decide)
  refine ⟨h.1, ?_, ?_⟩
  · exact h.2.1 "my_note_field" (.str "keep") (by decide) (by decide) (by decide)
  · exact (h.2.2.1 "osm_id" (by decide) (by decide)).trans (by decide)

/-! ## C5 — source hash formula and sensitivity -/

theorem string_data_inj {a b : String} (h : a.data = b.data) : a = b := by
  cases a
  cases b
  exact congrArg String.mk h

/-- The hash preimage, written as one right-nested character list. -/
theorem takeoutSourceData_data (n a : String) (c : Coordinates) (pid : String) :
    (takeoutSourceData n a c pid).data
      = n.data ++ ("|".data ++ (a.data ++ ("|".data ++ ((fmt6 c.lat).data
          ++ (",".data ++ ((fmt6 c.lng).data ++ ("|".data ++ pid.data))))))) := by
  simp [takeoutSourceData, String.data_append, List.append_assoc]

theorem takeoutSourceData_name_inj (n1 n2 a : String) (c : Coordinates)
    (pid : String)
    (h : takeoutSourceData n1 a c pid = takeoutSourceData n2 a c pid) :
    n1 = n2 := by
  have hd := congrArg String.data h
  rw [takeoutSourceData_data, takeoutSourceData_data] at hd
  exact string_data_inj (List.append_cancel_right hd)

theorem takeoutSourceData_address_inj (n a1 a2 : String) (c : Coordinates)
    (pid : String)
    (h : takeoutSourceData n a1 c pid = takeoutSourceData n a2 c pid) :
    a1 = a2 := by
  have hd := congrArg String.data h
  rw [takeoutSourceData_data, takeoutSourceData_data] at hd
  have h1 := List.append_cancel_left hd
  have h2 := List.append_cancel_left h1
  exact string_data_inj (List.append_cancel_right h2)

theorem takeoutSourceData_pid_inj (n a : String) (c : Coordinates)
    (pid1 pid2 : String)
    (h : takeoutSourceData n a c pid1 = takeoutSourceData n a c pid2) :
    pid1 = pid2 := by
  have hd := congrArg String.data h
  rw [takeoutSourceData_data, takeoutSourceData_data] at hd
  have h1 := List.append_cancel_left hd
  have h2 := List.append_cancel_left h1
  have h3 := List.append_cancel_left h2
  have h4 := List.append_cancel_left h3
  have h5 := List.append_cancel_left h4
  have h6 := List.append_cancel_left h5
  have h7 := List.append_cancel_left h6
  have h8 := List.append_cancel_left h7
  exact string_data_inj h8

theorem takeoutSourceData_lat_iff (n a : String) (la1 la2 lg : ℚ)
    (pid : String) :
    takeoutSourceData n a { lat := la1, lng := lg } pid
        = takeoutSourceData n a { lat := la2, lng := lg } pid
      ↔ fmt6 la1 = fmt6 la2 := by
  constructor
  · intro h
    have hd := congrArg String.data h
    rw [takeoutSourceData_data, takeoutSourceData_data] at hd
    have h1 := List.append_cancel_left hd
    have h2 := List.append_cancel_left h1
    have h3 := List.append_cancel_left h2
    have h4 := List.append_cancel_left h3
    exact string_data_inj (List.append_cancel_right h4)
  · intro h
    simp only [takeoutSourceData]
    rw [h]

theorem takeoutSourceData_lng_iff (n a : String) (la lg1 lg2 : ℚ)
    (pid : String) :
    takeoutSourceData n a { lat := la, lng := lg1 } pid
        = takeoutSourceData n a { lat := la, lng := lg2 } pid
      ↔ fmt6 lg1 = fmt6 lg2 := by
  constructor
  · intro h
    have hd := congrArg String.data h
    rw [takeoutSourceData_data, takeoutSourceData_data] at hd
    have h1 := List.append_cancel_left hd
    have h2 := List.append_cancel_left h1
    have h3 := List.append_cancel_left h2
    have h4 := List.append_cancel_left h3
    have h5 := List.append_cancel_left h4
    have h6 := List.append_cancel_left h5
    exact string_data_inj (List.append_cancel_right h6)
  · intro h
    simp only [takeoutSourceData]
    rw [h]

/-- Every record the Takeout converter emits carries the hash of its own
identity tuple. -/
theorem convertTakeoutPlace_sourceHash (tp : TakeoutPlace) (now : Time)
    (p : Place) (h : convertTakeoutPlace tp now = some p) :
    p.sourceHash
      = sha256hex (takeoutSourceData p.name p.address p.coordinates p.placeID) := by
  unfold convertTakeoutPlace at h
  rcases hid : takeoutIdentity tp with ⟨n, a, c⟩
  rw [hid] at h
  dsimp only at h
  split at h
  · exact absurd h (by simp)
  · injection h with h
    rw [← h]
    rfl

/-- C5 (amended): `source_hash` is the full lowercase-hex SHA-256 of
`name + "|" + address + "|" + lat + "," + lng + "|" + provider_id`, with
the coordinates rendered at six decimal places (Go `%f`).  Changing name,
address, or provider id alone always changes the hash input; changing
lat or lng alone changes the hash input exactly when the six-decimal
rendering changes (a change below 5·10⁻⁷ degrees can leave the hash
unchanged — see the counterexample); records equal on all four identity
fields have equal hashes. -/
theorem source_hash_amended :
    (∀ tp now p, convertTakeoutPlace tp now = some p →
        p.sourceHash = sha256hex
          (takeoutSourceData p.name p.address p.coordinates p.placeID))
    ∧ (∀ n1 n2 a c pid,
        takeoutSourceData n1 a c pid = takeoutSourceData n2 a c pid → n1 = n2)
    ∧ (∀ n a1 a2 c pid,
        takeoutSourceData n a1 c pid = takeoutSourceData n a2 c pid → a1 = a2)
    ∧ (∀ n a c pid1 pid2,
        takeoutSourceData n a c pid1 = takeoutSourceData n a c pid2 →
          pid1 = pid2)
    ∧ (∀ n a la1 la2 lg pid,
        takeoutSourceData n a { lat := la1, lng := lg } pid
            = takeoutSourceData n a { lat := la2, lng := lg } pid
          ↔ fmt6 la1 = fmt6 la2)
    ∧ (∀ n a la lg1 lg2 pid,
        takeoutSourceData n a { lat := la, lng := lg1 } pid
            = takeoutSourceData n a { lat := la, lng := lg2 } pid
          ↔ fmt6 lg1 = fmt6 lg2)
    ∧ (∀ tp1 tp2 now1 now2 p1 p2,
        convertTakeoutPlace tp1 now1 = some p1 →
        convertTakeoutPlace tp2 now2 = some p2 →
        p1.name = p2.name → p1.address = p2.address →
        p1.coordinates = p2.coordinates → p1.placeID = p2.placeID →
        p1.sourceHash = p2.sourceHash) := by
  refine ⟨convertTakeoutPlace_sourceHash,
    takeoutSourceData_name_inj, takeoutSourceData_address_inj,
    takeoutSourceData_pid_inj, takeoutSourceData_lat_iff,
    takeoutSourceData_lng_iff, ?_⟩
  intro tp1 tp2 now1 now2 p1 p2 h1 h2 hn ha hc hp
  rw [convertTakeoutPlace_sourceHash tp1 now1 p1 h1,
    convertTakeoutPlace_sourceHash tp2 now2 p2 h2, hn, ha, hc, hp]

/-- Properties of the C5 features: only the name is set. -/
def tinyLatProps : TakeoutProperties :=
  { date := "", googleMapsURL := "", location := none, comment := "",
    name := "A", address := "", categories := [], rating := 0,
    reviewCount := 0, priceLevel := 0, phone := "", website := "",
    hours := none, description := "", placeID := "" }

/-- Latitude `10⁻⁷`, longitude `5`. -/
def featLat1 : TakeoutPlace :=
  { geometry := { coordinates := [5, mkRat 1 10000000], gtype := "Point" },
    properties := tinyLatProps }

/-- Latitude `2·10⁻⁷`, longitude `5`. -/
def featLat2 : TakeoutPlace :=
  { geometry := { coordinates := [5, mkRat 2 10000000], gtype := "Point" },
    properties := tinyLatProps }

set_option maxRecDepth 100000 in
set_option maxHeartbeats 1000000 in
/-- C5 counterexample: two emitted records that differ in latitude (and
in no other identity field) yet have the same `source_hash`, because `%f`
renders both latitudes as `0.000000` — refuting "changing any one of
name/address/lat/lng/provider_id changes `source_hash`". -/
theorem source_hash_counterexample :
    (convertTakeoutPlace featLat1 2).map Place.sourceHash
        = (convertTakeoutPlace featLat2 2).map Place.sourceHash
    ∧ (convertTakeoutPlace featLat1 2).map (fun p => p.coordinates.lat)
        ≠ (convertTakeoutPlace featLat2 2).map (fun p => p.coordinates.lat)
    ∧ (convertTakeoutPlace featLat1 2).isSome = true := by decide

/-- C5 witness: concrete instances of the amended statement — the
six-decimal collapse (two distinct latitudes with equal rendering give
equal preimages) and name-injectivity at a concrete tuple. -/
theorem source_hash_amended_witness :
    takeoutSourceData "A" "" { lat := mkRat 1 10000000, lng := 5 } "pid"
        = takeoutSourceData "A" "" { lat := mkRat 2 10000000, lng := 5 } "pid"
    ∧ ("Joe" : String) = "Joe" := by
  refine ⟨?_, ?_⟩
  · exact (source_hash_amended.2.2.2.2.1 "A" ""
      (mkRat 1 10000000) (mkRat 2 10000000) 5 "pid").mpr (by decide)
  · exact source_hash_amended.2.1 "Joe" "Joe" "addr"
      { lat := 1, lng := 2 } "pid" rfl

/-! ## C8 — the Takeout JSON end-to-end scenario -/

/-- The feature of scenario 1: `[lng, lat] = [-74.0060, 40.7128]`,
name `"Joe's Pizza"`, no `place_id`. -/
def joesProps : TakeoutProperties :=
  { date := "", googleMapsURL := "", location := none, comment := "",
    name := "Joe's Pizza", address := "", categories := [], rating := 0,
    reviewCount := 0, priceLevel := 0, phone := "", website := "",
    hours := none, description := "", placeID := "" }

def joesFeature : TakeoutPlace :=
  { geometry := { coordinates := [mkRat (-74006) 1000, mkRat 407128 10000],
                  gtype := "Point" },
    properties := joesProps }

set_option maxRecDepth 100000 in
set_option maxHeartbeats 1000000 in
/-- C8: importing the feature yields exactly one record, with
`lat = 40.7128`, `lng = -74.0060` (the GeoJSON order swapped back),
a provider id starting with `takeout_`, and a 12-character id. -/
theorem takeout_joes_scenario :
    (parseTakeoutPlaces [joesFeature] 7).map
        (fun p => (p.coordinates, strTake p.placeID 8, p.id.length))
      = [({ lat := mkRat 407128 10000, lng := mkRat (-74006) 1000 }, "takeout_", 12)] := by
  decide

/-! ## C9 — entries with no usable identity -/

/-- C9 counterexample: a Takeout "Saved" CSV row whose name and address
are empty and whose coordinates are the `(0,0)` sentinel (no coordinate
columns) still yields a record when a URL cell is present — the claim
says such an entry produces no record. -/
theorem empty_identity_counterexample :
    (parseCSVRecord ["https://maps.google.com/"] (buildHeaderMap ["URL"]) 3).map
        (fun p => (p.name, p.address, p.coordinates))
      = some ("", "", { lat := 0, lng := 0 }) := by decide

/-- C9 (amended): the sources-package adapters drop an entry with no
usable identity silently (the converter returns nothing rather than an
error): the Takeout JSON path drops a feature with empty name, empty
address, sentinel coordinates and no Google-Maps URL; the Takeout CSV
path drops a row with empty name, address, and URL; the OSM, Foursquare,
Apple-KML and GPX converters drop entries with an empty name.  (A CSV
row carrying only a URL, and every feature on the legacy
`internal/importer` path, still produce a record — see the
counterexample.) -/
theorem empty_identity_dropped_amended :
    (∀ tp now, tp.properties.location = none → tp.properties.name = "" →
      tp.properties.address = "" → tp.properties.googleMapsURL = "" →
      geomCoords tp.geometry = { lat := 0, lng := 0 } →
      convertTakeoutPlace tp now = none)
    ∧ (∀ r hm now, getCSVField r hm ["Title", "Name", "Place Name"] = "" →
        getCSVField r hm ["Address", "Location"] = "" →
        getCSVField r hm ["URL", "Link", "Google Maps URL"] = "" →
        parseCSVRecord r hm now = none)
    ∧ (∀ node now, tagGet node.tags "name" = "" → convertOSMNode node now = none)
    ∧ (∀ venue ck now, venue.name = "" →
        convertFoursquareVenue venue ck now = none)
    ∧ (∀ pm now, pm.name = "" → convertKMLPlacemark pm now = none)
    ∧ (∀ w now, w.name = "" → convertGPXWaypoint w now = none) := by
  refine ⟨?_, ?_, ?_, ?_, ?_, ?_⟩
  · intro tp now hloc hname haddr hurl hgeo
    simp [convertTakeoutPlace, takeoutIdentity, hloc, hname, haddr, hurl, hgeo]
  · intro r hm now h1 h2 h3
    simp [parseCSVRecord, h1, h2, h3]
  · intro node now h
    simp [convertOSMNode, h]
  · intro venue ck now h
    simp [convertFoursquareVenue, h]
  · intro pm now h
    simp [convertKMLPlacemark, h]
  · intro w now h
    simp [convertGPXWaypoint, h]

/-- A Takeout feature with no usable identity at all. -/
def emptyFeature : TakeoutPlace :=
  { geometry := { coordinates := [0, 0], gtype := "Point" },
    properties :=
      { date := "", googleMapsURL := "", location := none, comment := "",
        name := "", address := "", categories := [], rating := 0,
        reviewCount := 0, priceLevel := 0, phone := "", website := "",
        hours := none, description := "", placeID := "" } }

/-- C9 witness: the concrete empty feature and empty-name entries are
dropped by every sources-package converter. -/
theorem empty_identity_dropped_witness :
    convertTakeoutPlace emptyFeature 3 = none
    ∧ parseCSVRecord [] (buildHeaderMap []) 3 = none
    ∧ convertOSMNode { id := 1, lat := 0, lon := 0, tags := [] } 3 = none
    ∧ convertKMLPlacemark
        { name := "", description := "", pointCoordinates := "",
          address := "", phoneNumber := "", extendedData := [] } 3 = none
    ∧ convertGPXWaypoint
        { lat := 0, lon := 0, name := "", desc := "", wtype := "", time := "" }
        3 = none := by
  have h := empty_identity_dropped_amended
  refine ⟨?_, ?_, ?_, ?_, ?_⟩
  · exact h.1 emptyFeature 3 rfl rfl rfl rfl (by decide)
  · exact h.2.1 [] (buildHeaderMap []) 3 (by decide) (by decide) (by decide)
  · exact h.2.2.1 { id := 1, lat := 0, lon := 0, tags := [] } 3 (by decide)
  · exact h.2.2.2.2.1 _ 3 rfl
  · exact h.2.2.2.2.2 _ 3 rfl

end Placeli
